import Mathlib

/-
  Verification development for the Fast-HotStuff consensus event loop of
  bitclout/core.

  The repository sources available here contain the consensus package's test
  files (src/unnamed/part_000 and part_001), the BLS wrapper
  (src/bls/signature.go), and the lib-layer signer (src/lib/db_adapter.go).
  The consensus package's implementation files themselves (event loop, QC
  validation utilities, payload derivation) are not among the sources, so
  those definitions are modelled from the specification (spec.md), pinned
  wherever possible by the behaviour the test files demand.

  Conventions of the embedding:
  * machine integers (uint64 views/heights, uint256 stake) are Nat; the spec
    requires exact arbitrary-precision arithmetic for the stake predicate;
  * Go nil pointers are Option.none;
  * Go maps are association lists (insertion replaces an existing key, as a
    Go map assignment does);
  * the BLS primitives are modelled symbolically: a signature is the formal
    multiset of (secret key, signed message) atoms contributed by point
    addition, so aggregation is concatenation and verification is multiset
    comparison.  Public keys are identified with their secret keys, which is
    the usual symbolic treatment of an unforgeable scheme.
-/

set_option maxHeartbeats 1600000

/-- Modelled from the spec (§4.1): `GetVoteSignaturePayload` and
`GetTimeoutSignaturePayload` are 32-byte collision-resistant digests of
`(view, block_hash)` resp. `(view, high_qc_view)`.  The consensus package's
implementation is not among the sources; collision resistance is modelled by
making the digests free constructors, so two digests are equal exactly when
their inputs are. -/
inductive SigPayload where
  | vote (view : Nat) (blockHash : Nat)
  | timeout (view : Nat) (highQCView : Nat)
deriving DecidableEq

/-- The byte strings handed to the BLS primitive in the sources have exactly
two shapes: a 32-byte payload digest on its own (what the consensus tests
sign), or a single op-code byte followed by the digest
(`append(opCode.Bytes(), payload...)` in `BLSSigner.sign`,
src/lib/db_adapter.go).  A 33-byte string never equals a 32-byte one and both
shapes determine their components, so the two constructors are a faithful
byte-level model. -/
inductive SignedBytes where
  | plain (p : SigPayload)
  | withOpCode (opCode : Nat) (p : SigPayload)
deriving DecidableEq

/-- Symbolic BLS signature: the formal multiset of (secret key, message)
atoms summed into the curve point. -/
abbrev BLSSig := List (Nat × SignedBytes)

/-- `bls.PrivateKey.Sign` (src/bls/signature.go): one atom. -/
def blsSign (sk : Nat) (msg : SignedBytes) : BLSSig := [(sk, msg)]

/-- `bls.AggregateSignatures` (src/bls/signature.go): point addition, i.e.
concatenation of atom lists.  Aggregating a single signature returns it
unchanged, as point addition of one point does. -/
def blsAggregateSignatures (sigs : List BLSSig) : BLSSig := sigs.flatten

/-- Multiset equality of atom lists: equal lengths and matching counts. -/
def atomsMatch (a b : BLSSig) : Bool :=
  a.length == b.length && a.all (fun x => a.count x == b.count x)

/-- `bls.PublicKey.Verify`: a single-signer signature verifies exactly
against its own (key, message) atom. -/
def blsVerify (pk : Nat) (sig : BLSSig) (msg : SignedBytes) : Bool :=
  sig == [(pk, msg)]

/-- `bls.VerifyAggregateSignatureSinglePayload` (src/bls/signature.go). -/
def VerifyAggregateSignatureSinglePayload (pks : List Nat) (sig : BLSSig)
    (payload : SignedBytes) : Bool :=
  atomsMatch sig (pks.map (fun pk => (pk, payload)))

/-- `bls.VerifyAggregateSignatureMultiplePayloads` (src/bls/signature.go):
rejects mismatched lengths, then signer `i` must have signed payload `i`. -/
def VerifyAggregateSignatureMultiplePayloads (pks : List Nat) (sig : BLSSig)
    (payloads : List SignedBytes) : Bool :=
  pks.length == payloads.length && atomsMatch sig (pks.zip payloads)

/-- Modelled from the spec (§4.1): the vote digest. -/
def GetVoteSignaturePayload (view : Nat) (blockHash : Nat) : SigPayload :=
  .vote view blockHash

/-- Modelled from the spec (§4.1): the timeout digest. -/
def GetTimeoutSignaturePayload (view : Nat) (highQCView : Nat) : SigPayload :=
  .timeout view highQCView

/-- `BLSSignatureOpCodeValidatorVote` (src/lib/db_adapter.go). -/
def BLSSignatureOpCodeValidatorVote : Nat := 0

/-- `BLSSignatureOpCodeValidatorTimeout` (src/lib/db_adapter.go). -/
def BLSSignatureOpCodeValidatorTimeout : Nat := 1

/-- `BLSSigner.sign` (src/lib/db_adapter.go): prepends the op-code byte to
the payload before signing. -/
def BLSSigner.sign (sk : Nat) (opCode : Nat) (payload : SigPayload) : BLSSig :=
  blsSign sk (.withOpCode opCode payload)

/-- `BLSSigner.SignValidatorVote` (src/lib/db_adapter.go). -/
def BLSSigner.SignValidatorVote (sk : Nat) (view : Nat) (blockHash : Nat) : BLSSig :=
  BLSSigner.sign sk BLSSignatureOpCodeValidatorVote (GetVoteSignaturePayload view blockHash)

/-- `BLSSigner.SignValidatorTimeout` (src/lib/db_adapter.go). -/
def BLSSigner.SignValidatorTimeout (sk : Nat) (view : Nat) (highQCView : Nat) : BLSSig :=
  BLSSigner.sign sk BLSSignatureOpCodeValidatorTimeout (GetTimeoutSignaturePayload view highQCView)

/-- `BLSVerifyValidatorVote` (src/lib/db_adapter.go): verifies over the
op-code-prefixed payload. -/
def BLSVerifyValidatorVote (view : Nat) (blockHash : Nat) (sig : BLSSig) (pk : Nat) : Bool :=
  blsVerify pk sig (.withOpCode BLSSignatureOpCodeValidatorVote (GetVoteSignaturePayload view blockHash))

/-- `BLSVerifyValidatorTimeout` (src/lib/db_adapter.go). -/
def BLSVerifyValidatorTimeout (view : Nat) (highQCView : Nat) (sig : BLSSig) (pk : Nat) : Bool :=
  blsVerify pk sig (.withOpCode BLSSignatureOpCodeValidatorTimeout (GetTimeoutSignaturePayload view highQCView))

/-- `aggregatedSignature` (consensus package, shape pinned by the tests):
signers bitset plus aggregated BLS signature, both nilable pointers. -/
structure AggregatedSignature where
  signersList : Option (List Bool)
  signature : Option BLSSig
deriving DecidableEq

/-- `quorumCertificate` (consensus package, shape pinned by the tests). -/
structure QuorumCertificate where
  view : Nat
  blockHash : Option Nat
  aggregatedSignature : Option AggregatedSignature
deriving DecidableEq

/-- `aggregateQuorumCertificate` (consensus package, shape pinned by the
tests). -/
structure AggregateQuorumCertificate where
  view : Nat
  highQC : Option QuorumCertificate
  highQCViews : List Nat
  aggregatedSignature : Option AggregatedSignature
deriving DecidableEq

/-- `block` (consensus package, shape pinned by the tests). -/
structure Block where
  blockHash : Option Nat
  view : Nat
  height : Nat
  qc : Option QuorumCertificate
deriving DecidableEq

/-- `validator` (consensus package, shape pinned by the tests): nilable
public key and nilable uint256 stake. -/
structure Validator where
  publicKey : Option Nat
  stakeAmount : Option Nat
deriving DecidableEq

/-- `voteMessage` (consensus package, shape pinned by the tests). -/
structure VoteMessage where
  view : Nat
  blockHash : Option Nat
  publicKey : Option Nat
  signature : Option BLSSig
deriving DecidableEq

/-- `timeoutMessage` (consensus package, shape pinned by the tests). -/
structure TimeoutMessage where
  view : Nat
  highQC : Option QuorumCertificate
  publicKey : Option Nat
  signature : Option BLSSig
deriving DecidableEq

/-- Modelled from the spec (§4.2 step 1) and TestIsProperlyFormedTimeout: a
QC is properly formed when it is non-nil and none of its fields are
missing. -/
def isProperlyFormedQC : Option QuorumCertificate → Bool
  | none => false
  | some qc =>
    qc.blockHash.isSome &&
      (match qc.aggregatedSignature with
       | some a => a.signersList.isSome && a.signature.isSome
       | none => false)

/-- Modelled from the spec (§3) and TestIsProperlyFormedBlock: positive view
and height, hash and QC present. -/
def isProperlyFormedBlock : Option Block → Bool
  | none => false
  | some b => b.height != 0 && b.view != 0 && b.blockHash.isSome && b.qc.isSome

/-- Modelled from the spec (§3) and TestIsProperlyFormedValidatorSet:
non-empty, no nil validators, and every validator has a public key and a
non-nil, non-zero stake. -/
def isProperlyFormedValidatorSet (vs : List (Option Validator)) : Bool :=
  !vs.isEmpty &&
    vs.all (fun ov =>
      match ov with
      | some v =>
        v.publicKey.isSome &&
          (match v.stakeAmount with
           | some s => s != 0
           | none => false)
      | none => false)

/-- Modelled from the spec (§4.3 form check) and TestIsProperlyFormedVote. -/
def isProperlyFormedVote : Option VoteMessage → Bool
  | none => false
  | some v => v.view != 0 && v.blockHash.isSome && v.publicKey.isSome && v.signature.isSome

/-- Modelled from the spec (§4.3 form check) and TestIsProperlyFormedTimeout:
the embedded high QC must itself be properly formed. -/
def isProperlyFormedTimeout : Option TimeoutMessage → Bool
  | none => false
  | some t =>
    t.view != 0 && isProperlyFormedQC t.highQC && t.publicKey.isSome && t.signature.isSome

/-- Modelled from the spec (§4.6): super-majority iff
`3 * stake >= 2 * totalStake + 1` in exact integer arithmetic, rejecting nil
arguments, zero total stake, and stake exceeding the total. -/
def isSuperMajorityStake : Option Nat → Option Nat → Bool
  | some stake, some totalStake =>
    if totalStake = 0 then false
    else if totalStake < stake then false
    else decide (2 * totalStake + 1 ≤ 3 * stake)
  | _, _ => false

/-- A validated validator entry: the fields of a `validator` that passed the
formedness checks. -/
structure ValidatorI where
  publicKey : Nat
  stakeAmount : Nat
deriving DecidableEq

/-- Validation of a validator set: returns the extracted entries exactly when
`isProperlyFormedValidatorSet` holds. -/
def validateValidatorSet (vs : List (Option Validator)) : Option (List ValidatorI) :=
  if vs.isEmpty then none
  else
    vs.mapM (fun ov =>
      ov.bind (fun v =>
        match v.publicKey, v.stakeAmount with
        | some pk, some st => if st = 0 then none else some ⟨pk, st⟩
        | _, _ => none))

/-- Total stake of a list of validated validators. -/
def sumStake (vs : List ValidatorI) : Nat := (vs.map (·.stakeAmount)).sum

/-- Every set bit of the bitset must index into the validator list. -/
def bitsInRange (bits : List Bool) (n : Nat) : Bool :=
  bits.enum.all (fun p => !p.2 || decide (p.1 < n))

/-- Indices selected by the signers bitset, in increasing order. -/
def selectedIndices (bits : List Bool) (n : Nat) : List Nat :=
  (List.range n).filter (fun i => bits.getD i false)

/-- Number of set bits. -/
def popcount (bits : List Bool) : Nat := bits.count true

/-- Modelled from the spec (§4.2): validity of a plain super-majority QC.
Rejects malformed inputs and out-of-range signer bits, requires the selected
validators' stake to be a super-majority, and verifies the aggregated
signature over the vote payload of `(qc.view, qc.block_hash)`. -/
def IsValidSuperMajorityQuorumCertificate (qc : Option QuorumCertificate)
    (validators : List (Option Validator)) : Bool :=
  match qc, validateValidatorSet validators with
  | some q, some vs =>
    (match q.blockHash, q.aggregatedSignature with
     | some h, some aggSig =>
       (match aggSig.signersList, aggSig.signature with
        | some bits, some sig =>
          bitsInRange bits vs.length &&
            (let signers := (selectedIndices bits vs.length).filterMap (fun i => vs.get? i)
             isSuperMajorityStake (some (sumStake signers)) (some (sumStake vs)) &&
               VerifyAggregateSignatureSinglePayload (signers.map (·.publicKey)) sig
                 (.plain (GetVoteSignaturePayload q.view h)))
        | _, _ => false)
     | _, _ => false)
  | _, _ => false

/-- Modelled from the spec (§4.2) and pinned by
TestIsValidSuperMajorityAggregateQuorumCertificate: validity of a timeout
aggregate QC.  Rejects malformed inputs, a high-QC-views list whose length
differs from the bitset popcount, and out-of-range bits; requires
super-majority stake; verifies the aggregated signature against the
per-signer payloads `timeout_payload(agg_qc.view, high_qc_views[i])` (signers
in bitset order); and requires `max(high_qc_views) = high_qc.view`.  The
test's accepted input embeds a high QC that is NOT itself a valid
super-majority QC, so — contrary to the spec's §4.2 step 5 — no such check is
performed beyond the formedness of the high QC. -/
def IsValidSuperMajorityAggregateQuorumCertificate
    (aggQC : Option AggregateQuorumCertificate)
    (validators : List (Option Validator)) : Bool :=
  match aggQC, validateValidatorSet validators with
  | some a, some vs =>
    (match a.highQC, a.aggregatedSignature with
     | some hqc, some aggSig =>
       (match aggSig.signersList, aggSig.signature with
        | some bits, some sig =>
          isProperlyFormedQC (some hqc) &&
            bitsInRange bits vs.length &&
            (a.highQCViews.length == popcount bits) &&
            (let signers := (selectedIndices bits vs.length).filterMap (fun i => vs.get? i)
             isSuperMajorityStake (some (sumStake signers)) (some (sumStake vs)) &&
               VerifyAggregateSignatureMultiplePayloads (signers.map (·.publicKey)) sig
                 (a.highQCViews.map (fun v => .plain (GetTimeoutSignaturePayload a.view v))) &&
               (a.highQCViews.foldl max 0 == hqc.view))
        | _, _ => false)
     | _, _ => false)
  | _, _ => false

/-- Pin of TestIsValidSuperMajorityQuorumCertificate (src/unnamed/part_001):
validators 1 and 2 (stake 5 of 6) form a valid super-majority QC. -/
theorem qcValidation_test_happy :
    IsValidSuperMajorityQuorumCertificate
      (some ⟨10, some 77,
        some ⟨some [true, true],
          some (blsAggregateSignatures
            [blsSign 1 (.plain (GetVoteSignaturePayload 10 77)),
             blsSign 2 (.plain (GetVoteSignaturePayload 10 77))])⟩⟩)
      [some ⟨some 1, some 3⟩, some ⟨some 2, some 2⟩, some ⟨some 3, some 1⟩] = true := by
  decide

/-- Pin of TestIsValidSuperMajorityQuorumCertificate (src/unnamed/part_001):
validator 1 alone (stake 3 of 6) is rejected. -/
theorem qcValidation_test_sad :
    IsValidSuperMajorityQuorumCertificate
      (some ⟨10, some 77,
        some ⟨some [true], some (blsSign 1 (.plain (GetVoteSignaturePayload 10 77)))⟩⟩)
      [some ⟨some 1, some 3⟩, some ⟨some 2, some 2⟩, some ⟨some 3, some 1⟩] = false := by
  decide

/-- Association-list lookup; Go map indexing. -/
def alookup {α β : Type} [DecidableEq α] (l : List (α × β)) (k : α) : Option β :=
  match l with
  | [] => none
  | (k', v) :: rest => if k' = k then some v else alookup rest k

/-- Association-list insertion; Go map assignment (replaces an existing
key). -/
def ainsert {α β : Type} [DecidableEq α] (l : List (α × β)) (k : α) (v : β) :
    List (α × β) :=
  match l with
  | [] => [(k, v)]
  | (k', v') :: rest => if k' = k then (k, v) :: rest else (k', v') :: ainsert rest k v

/-- A validated block together with its validator set and the derived
public-key lookup, as stored inside the event loop after `Init` /
`ProcessTipBlock` validation (the loop's internal
block-with-validator-lookup record, shape pinned by TestInit). -/
structure SafeBlockI where
  blockHash : Nat
  view : Nat
  height : Nat
  qc : QuorumCertificate
  validatorSet : List ValidatorI
  validatorLookup : List (Nat × (ValidatorI × Nat))
deriving DecidableEq

/-- Modelled from the spec (§3): the derived validator-lookup map from
public key to (validator, index), built by Go-map insertion. -/
def buildValidatorLookup (vs : List ValidatorI) : List (Nat × (ValidatorI × Nat)) :=
  vs.enum.foldl (fun acc p => ainsert acc p.2.publicKey (p.2, p.1)) []

/-- `BlockWithValidators` (consensus package, shape pinned by the tests):
the raw input pair handed to `Init` / `ProcessTipBlock`. -/
structure BlockWithValidators where
  block : Option Block
  validatorSet : List (Option Validator)
deriving DecidableEq

/-- Validation performed by `Init` / `ProcessTipBlock` on one input pair:
the block must be properly formed and the validator set properly formed;
returns the internal record with the derived lookup. -/
def validateBlockWithValidators (bwv : BlockWithValidators) : Option SafeBlockI :=
  match bwv.block, validateValidatorSet bwv.validatorSet with
  | some b, some vs =>
    if b.view = 0 ∨ b.height = 0 then none
    else
      match b.blockHash, b.qc with
      | some h, some q => some ⟨h, b.view, b.height, q, vs, buildValidatorLookup vs⟩
      | _, _ => none
  | _, _ => none

/-- `eventLoopStatus` (consensus package, pinned by the tests). -/
inductive EventLoopStatus where
  | notInitialized
  | initialized
  | running
deriving DecidableEq

/-- `FastHotStuffEventType` (consensus package, pinned by the tests). -/
inductive FastHotStuffEventType where
  | vote
  | timeout
  | constructVoteQC
  | constructTimeoutQC
deriving DecidableEq

/-- `FastHotStuffEvent` (consensus package, shape pinned by the tests). -/
structure FastHotStuffEvent where
  eventType : FastHotStuffEventType
  view : Nat
  tipBlockHash : Nat
  tipBlockHeight : Nat
  qc : Option QuorumCertificate
  aggregateQC : Option AggregateQuorumCertificate
deriving DecidableEq

/-- Errors surfaced by the event loop (spec §7; the Go code returns wrapped
string errors whose fragments the tests match on). -/
inductive ConsensusError where
  | alreadyRunning
  | notInitialized
  | notRunning
  | invalidBlockConstructionInterval
  | invalidTimeoutDuration
  | invalidTip
  | invalidSafeBlocks
  | malformedVote
  | malformedTimeout
  | invalidSignature
  | staleView
  | alreadyVotedForView
  | alreadyTimedOutForView
deriving DecidableEq

/-- Modelled from the spec (§3, §4.4, §4.5): the event loop's state.  The
two scheduled tasks are represented by their last-requested duration and
whether they are currently armed; `consecutiveTimeouts` is the spec's `k`,
the number of consecutive `AdvanceView` calls since `Start` or the last
successful `ProcessTipBlock` (§4.5 timer policy).  Emitted events are
returned by the operations rather than queued on a channel. -/
structure FastHotStuffEventLoop where
  status : EventLoopStatus
  currentView : Nat
  tip : SafeBlockI
  safeBlocks : List SafeBlockI
  votesSeen : List (SigPayload × List (Nat × VoteMessage))
  timeoutsSeen : List (Nat × List (Nat × TimeoutMessage))
  blockConstructionInterval : Nat
  timeoutBaseDuration : Nat
  blockConstructionTaskDuration : Nat
  blockConstructionTaskScheduled : Bool
  timeoutTaskDuration : Nat
  timeoutTaskScheduled : Bool
  consecutiveTimeouts : Nat
deriving DecidableEq

/-- Placeholder for the nil tip of a freshly constructed loop. -/
def emptySafeBlockI : SafeBlockI :=
  ⟨0, 0, 0, ⟨0, none, none⟩, [], []⟩

/-- `NewFastHotStuffEventLoop` (consensus package, pinned by TestInit):
fresh, not-initialized state. -/
def NewFastHotStuffEventLoop : FastHotStuffEventLoop :=
  { status := .notInitialized
    currentView := 0
    tip := emptySafeBlockI
    safeBlocks := []
    votesSeen := []
    timeoutsSeen := []
    blockConstructionInterval := 0
    timeoutBaseDuration := 0
    blockConstructionTaskDuration := 0
    blockConstructionTaskScheduled := false
    timeoutTaskDuration := 0
    timeoutTaskScheduled := false
    consecutiveTimeouts := 0 }

/-- Arm the block-construction task: always the configured interval
(spec §4.5 timer policy). -/
def scheduleBlockConstructionTask (s : FastHotStuffEventLoop) : FastHotStuffEventLoop :=
  { s with blockConstructionTaskDuration := s.blockConstructionInterval
           blockConstructionTaskScheduled := true }

/-- Arm the view-timeout task: `timeout_base_duration * 2 ^ k`
(spec §4.5 timer policy). -/
def scheduleTimeoutTask (s : FastHotStuffEventLoop) : FastHotStuffEventLoop :=
  { s with timeoutTaskDuration := s.timeoutBaseDuration * 2 ^ s.consecutiveTimeouts
           timeoutTaskScheduled := true }

/-- Modelled from the spec (§4.5 `Init`): validates the durations, the tip
and the safe blocks, stores them with derived lookups, sets
`current_view = tip.view + 1`, resets the volatile evidence pools, and
transitions to `Initialized` without starting either timer.  Fails without
changing the state otherwise; `Init` on a running loop is an error (§4.5
status machine). -/
def FastHotStuffEventLoop.Init (s : FastHotStuffEventLoop)
    (blockConstructionInterval timeoutBaseDuration : Nat)
    (tip : BlockWithValidators) (safeBlocks : List BlockWithValidators) :
    FastHotStuffEventLoop × Option ConsensusError :=
  if s.status = .running then (s, some .alreadyRunning)
  else if blockConstructionInterval = 0 then (s, some .invalidBlockConstructionInterval)
  else if timeoutBaseDuration = 0 then (s, some .invalidTimeoutDuration)
  else
    match validateBlockWithValidators tip, safeBlocks.mapM validateBlockWithValidators with
    | some tipI, some safeI =>
      ({ s with status := .initialized
                currentView := tipI.view + 1
                tip := tipI
                safeBlocks := safeI
                votesSeen := []
                timeoutsSeen := []
                blockConstructionInterval := blockConstructionInterval
                timeoutBaseDuration := timeoutBaseDuration }, none)
    | none, _ => (s, some .invalidTip)
    | some _, none => (s, some .invalidSafeBlocks)

/-- Modelled from the spec (§4.5 `Start`): requires `Initialized`, arms both
timers and transitions to `Running`; the consecutive-timeout counter starts
at zero, so the timeout timer is armed with the base duration. -/
def FastHotStuffEventLoop.Start (s : FastHotStuffEventLoop) :
    FastHotStuffEventLoop × Option ConsensusError :=
  if s.status = .initialized then
    (scheduleTimeoutTask (scheduleBlockConstructionTask
      { s with status := .running, consecutiveTimeouts := 0 }), none)
  else (s, some .notInitialized)

/-- Modelled from the spec (§4.5 `Stop`): from `Running`, cancels both
timers and returns to `Initialized`; otherwise a no-op (safe to repeat). -/
def FastHotStuffEventLoop.Stop (s : FastHotStuffEventLoop) : FastHotStuffEventLoop :=
  if s.status = .running then
    { s with status := .initialized
             blockConstructionTaskScheduled := false
             timeoutTaskScheduled := false }
  else s

/-- View component of an evidence-pool key: for votes the key is the payload
digest of `(view, block_hash)`, for timeouts the view itself. -/
def SigPayload.keyView : SigPayload → Nat
  | .vote v _ => v
  | .timeout v _ => v

/-- Modelled from the spec (§4.3 eviction): on advancement to view `V`, drop
every bucket whose view component is `< V - 1`, i.e. keep exactly the
buckets with view `≥ V - 1` (`V ≤ view + 1` in subtraction-free form). -/
def evictStaleVotesAndTimeouts (s : FastHotStuffEventLoop) : FastHotStuffEventLoop :=
  { s with votesSeen := s.votesSeen.filter (fun kv => decide (s.currentView ≤ kv.1.keyView + 1))
           timeoutsSeen := s.timeoutsSeen.filter (fun kv => decide (s.currentView ≤ kv.1 + 1)) }

/-- Modelled from the spec (§4.5 `AdvanceView`): requires `Running`;
increments the view and the consecutive-timeout counter, evicts stale
evidence, re-arms both timers, and returns the new view. -/
def FastHotStuffEventLoop.AdvanceView (s : FastHotStuffEventLoop) :
    FastHotStuffEventLoop × Nat × Option ConsensusError :=
  if s.status = .running then
    let s1 := { s with currentView := s.currentView + 1
                       consecutiveTimeouts := s.consecutiveTimeouts + 1 }
    (scheduleTimeoutTask (scheduleBlockConstructionTask (evictStaleVotesAndTimeouts s1)),
      s1.currentView, none)
  else (s, 0, some .notRunning)

/-- Modelled from the spec (§4.5 `ProcessTipBlock`): requires `Running`;
validates and stores the new tip and safe blocks, sets
`current_view = max(current_view, tip.view + 1)`, resets the
consecutive-timeout counter, evicts stale evidence and re-arms both
timers. -/
def FastHotStuffEventLoop.ProcessTipBlock (s : FastHotStuffEventLoop)
    (tip : BlockWithValidators) (safeBlocks : List BlockWithValidators) :
    FastHotStuffEventLoop × Option ConsensusError :=
  if s.status = .running then
    match validateBlockWithValidators tip, safeBlocks.mapM validateBlockWithValidators with
    | some tipI, some safeI =>
      let s1 := { s with tip := tipI
                         safeBlocks := safeI
                         currentView := max s.currentView (tipI.view + 1)
                         consecutiveTimeouts := 0 }
      (scheduleTimeoutTask (scheduleBlockConstructionTask (evictStaleVotesAndTimeouts s1)), none)
    | none, _ => (s, some .invalidTip)
    | some _, none => (s, some .invalidSafeBlocks)
  else (s, some .notRunning)

/-- The message a vote signature is verified against by the event loop: the
bare payload digest, exactly as the consensus tests sign it
(`validatorPrivateKey.Sign(voteSignaturePayload[:])` in part_000). -/
def voteSignedMessage (view : Nat) (blockHash : Nat) : SignedBytes :=
  .plain (GetVoteSignaturePayload view blockHash)

/-- The message a timeout signature is verified against by the event loop:
the bare payload digest. -/
def timeoutSignedMessage (view : Nat) (highQCView : Nat) : SignedBytes :=
  .plain (GetTimeoutSignaturePayload view highQCView)

/-- Signature check performed on an incoming vote (spec §4.3 step 2, pinned
by the happy paths of TestProcessValidatorVote and
TestVoteQCConstructionSignal, which sign the bare payload). -/
def voteSignatureValid (v : VoteMessage) : Bool :=
  blsVerify (v.publicKey.getD 0) (v.signature.getD [])
    (voteSignedMessage v.view (v.blockHash.getD 0))

/-- Signature check performed on an incoming timeout (spec §4.3 step 2). -/
def timeoutSignatureValid (t : TimeoutMessage) : Bool :=
  blsVerify (t.publicKey.getD 0) (t.signature.getD [])
    (timeoutSignedMessage t.view ((t.highQC.getD ⟨0, none, none⟩).view))

/-- Modelled from the spec (§4.3 uniqueness): the signer already has a
recorded vote for this view, regardless of block hash. -/
def hasVotedForView (s : FastHotStuffEventLoop) (pk : Nat) (view : Nat) : Bool :=
  s.votesSeen.any (fun kv =>
    match alookup kv.2 pk with
    | some v => v.view == view
    | none => false)

/-- Modelled from the spec (§4.3 uniqueness): the signer already has a
recorded timeout for this view. -/
def hasTimedOutForView (s : FastHotStuffEventLoop) (pk : Nat) (view : Nat) : Bool :=
  match alookup s.timeoutsSeen view with
  | some bucket => (alookup bucket pk).isSome
  | none => false

/-- Modelled from the spec (§4.3, §4.5 `ProcessValidatorVote`), with the
check order pinned by TestProcessValidatorVote: form, signature, freshness,
vote uniqueness, timeout uniqueness; on success the vote is recorded under
the payload-digest key.  Every failure leaves the state unchanged. -/
def FastHotStuffEventLoop.ProcessValidatorVote (s : FastHotStuffEventLoop)
    (vote : Option VoteMessage) : FastHotStuffEventLoop × Option ConsensusError :=
  if s.status = .running then
    if isProperlyFormedVote vote then
      let v := vote.getD ⟨0, none, none, none⟩
      let pk := v.publicKey.getD 0
      if voteSignatureValid v then
        if v.view < s.currentView then (s, some .staleView)
        else if hasVotedForView s pk v.view then (s, some .alreadyVotedForView)
        else if hasTimedOutForView s pk v.view then (s, some .alreadyTimedOutForView)
        else
          let key := GetVoteSignaturePayload v.view (v.blockHash.getD 0)
          let bucket := (alookup s.votesSeen key).getD []
          ({ s with votesSeen := ainsert s.votesSeen key (ainsert bucket pk v) }, none)
      else (s, some .invalidSignature)
    else (s, some .malformedVote)
  else (s, some .notRunning)

/-- Modelled from the spec (§4.3, §4.5 `ProcessValidatorTimeout`), with the
check order pinned by TestProcessValidatorTimeout; symmetric to vote
processing, recording under the timed-out view. -/
def FastHotStuffEventLoop.ProcessValidatorTimeout (s : FastHotStuffEventLoop)
    (timeout : Option TimeoutMessage) : FastHotStuffEventLoop × Option ConsensusError :=
  if s.status = .running then
    if isProperlyFormedTimeout timeout then
      let t := timeout.getD ⟨0, none, none, none⟩
      let pk := t.publicKey.getD 0
      if timeoutSignatureValid t then
        if t.view < s.currentView then (s, some .staleView)
        else if hasVotedForView s pk t.view then (s, some .alreadyVotedForView)
        else if hasTimedOutForView s pk t.view then (s, some .alreadyTimedOutForView)
        else
          let bucket := (alookup s.timeoutsSeen t.view).getD []
          ({ s with timeoutsSeen := ainsert s.timeoutsSeen t.view (ainsert bucket pk t) }, none)
      else (s, some .invalidSignature)
    else (s, some .malformedTimeout)
  else (s, some .notRunning)

/-- The vote bucket for a safe block: all recorded votes keyed by the
payload digest of `(block.view, block.block_hash)` (spec §4.3). -/
def blockVoteBucket (s : FastHotStuffEventLoop) (b : SafeBlockI) :
    List (Nat × VoteMessage) :=
  (alookup s.votesSeen (GetVoteSignaturePayload b.view b.blockHash)).getD []

/-- The validators of `b` (with their bitset indices, in index order) that
have a recorded vote for `b` (spec §4.5 phase A). -/
def blockVoteSigners (s : FastHotStuffEventLoop) (b : SafeBlockI) :
    List (Nat × ValidatorI) :=
  b.validatorSet.enum.filter (fun p => (alookup (blockVoteBucket s b) p.2.publicKey).isSome)

/-- Modelled from the spec (§4.5 phase A): the recorded votes for `b` carry
super-majority stake of `b`'s validator set. -/
def canConstructVoteQC (s : FastHotStuffEventLoop) (b : SafeBlockI) : Bool :=
  isSuperMajorityStake (some (sumStake ((blockVoteSigners s b).map (·.2))))
    (some (sumStake b.validatorSet))

/-- Safe blocks for which a vote QC can be constructed. -/
def qualifyingSafeBlocks (s : FastHotStuffEventLoop) : List SafeBlockI :=
  s.safeBlocks.filter (canConstructVoteQC s)

/-- Preference between two qualifying safe blocks (spec §4.5 phase A):
highest view wins, ties broken by block-hash order. -/
def betterBlock (a b : SafeBlockI) : SafeBlockI :=
  if a.view < b.view ∨ (a.view = b.view ∧ b.blockHash < a.blockHash) then b else a

/-- The preferred qualifying safe block, if any. -/
def pickPreferredBlock : List SafeBlockI → Option SafeBlockI
  | [] => none
  | x :: rest => some (rest.foldl betterBlock x)

/-- Signers bitset for the vote QC of `b`: bit `i` is set exactly when
validator `i` of `b`'s set has a recorded vote. -/
def voteQCBits (s : FastHotStuffEventLoop) (b : SafeBlockI) : List Bool :=
  (List.range b.validatorSet.length).map (fun i =>
    match b.validatorSet.get? i with
    | some v => (alookup (blockVoteBucket s b) v.publicKey).isSome
    | none => false)

/-- The recorded partial vote signatures for `b`, in bitset order. -/
def voteQCPartialSignatures (s : FastHotStuffEventLoop) (b : SafeBlockI) : List BLSSig :=
  (blockVoteSigners s b).filterMap (fun p =>
    (alookup (blockVoteBucket s b) p.2.publicKey).bind (·.signature))

/-- Modelled from the spec (§4.5 phase A, pinned by
TestVoteQCConstructionSignal): the `ConstructVoteQC` event for safe block
`b`. -/
def constructVoteQCEvent (s : FastHotStuffEventLoop) (b : SafeBlockI) : FastHotStuffEvent :=
  { eventType := .constructVoteQC
    view := s.currentView
    tipBlockHash := b.blockHash
    tipBlockHeight := b.height
    qc := some { view := b.view
                 blockHash := some b.blockHash
                 aggregatedSignature := some
                   { signersList := some (voteQCBits s b)
                     signature := some (blsAggregateSignatures (voteQCPartialSignatures s b)) } }
    aggregateQC := none }

/-- The timeout bucket consulted by phase B: timeouts recorded at view
`current_view - 1` (spec §4.5 phase B). -/
def timeoutBucket (s : FastHotStuffEventLoop) : List (Nat × TimeoutMessage) :=
  (alookup s.timeoutsSeen (s.currentView - 1)).getD []

/-- One timing-out validator of the current tip's set: its bitset index,
validator entry, recorded timeout and that timeout's high QC. -/
structure TimeoutSignerInfo where
  idx : Nat
  val : ValidatorI
  msg : TimeoutMessage
  highQC : QuorumCertificate
deriving DecidableEq

/-- The tip validators (in bitset order) with a recorded timeout at view
`current_view - 1` (spec §4.5 phase B). -/
def timeoutSigners (s : FastHotStuffEventLoop) : List TimeoutSignerInfo :=
  s.tip.validatorSet.enum.filterMap (fun p =>
    (alookup (timeoutBucket s) p.2.publicKey).bind (fun t =>
      t.highQC.map (fun hq => ⟨p.1, p.2, t, hq⟩)))

/-- Modelled from the spec (§4.5 phase B): the timing-out validators' stake
is a super-majority of the current tip's validator set. -/
def canConstructTimeoutQC (s : FastHotStuffEventLoop) : Bool :=
  isSuperMajorityStake (some (sumStake ((timeoutSigners s).map (·.val))))
    (some (sumStake s.tip.validatorSet))

/-- Modelled from the spec (§4.5 phase B): the high QC carried by the
timeout whose `high_qc.view` is maximal, ties resolved in favour of the
lowest signer index. -/
def timeoutHighQC (s : FastHotStuffEventLoop) : Option QuorumCertificate :=
  match timeoutSigners s with
  | [] => none
  | x :: rest =>
    some (rest.foldl (fun best q => if best.view < q.highQC.view then q.highQC else best) x.highQC)

/-- Signers bitset for the timeout aggregate QC: bit `i` is set exactly when
tip validator `i` has a recorded timeout carrying a high QC. -/
def timeoutQCBits (s : FastHotStuffEventLoop) : List Bool :=
  (List.range s.tip.validatorSet.length).map (fun i =>
    match s.tip.validatorSet.get? i with
    | some v => ((alookup (timeoutBucket s) v.publicKey).bind (·.highQC)).isSome
    | none => false)

/-- Each signer's reported high-QC view, in bitset order (spec §4.5 phase
B). -/
def timeoutHighQCViews (s : FastHotStuffEventLoop) : List Nat :=
  (timeoutSigners s).map (·.highQC.view)

/-- The recorded partial timeout signatures, in bitset order. -/
def timeoutQCPartialSignatures (s : FastHotStuffEventLoop) : List BLSSig :=
  (timeoutSigners s).filterMap (·.msg.signature)

/-- Modelled from the spec (§4.5 phase B, pinned by
TestTimeoutQCConstructionSignal): the `ConstructTimeoutQC` event, when the
high QC exists and the safe block it references is found. -/
def constructTimeoutQCEvent (s : FastHotStuffEventLoop) : Option FastHotStuffEvent :=
  match timeoutHighQC s with
  | none => none
  | some hq =>
    match s.safeBlocks.find? (fun b => b.blockHash == hq.blockHash.getD 0) with
    | none => none
    | some tipBlock =>
      some { eventType := .constructTimeoutQC
             view := s.currentView
             tipBlockHash := tipBlock.blockHash
             tipBlockHeight := tipBlock.height
             qc := none
             aggregateQC := some
               { view := s.currentView - 1
                 highQC := some hq
                 highQCViews := timeoutHighQCViews s
                 aggregatedSignature := some
                   { signersList := some (timeoutQCBits s)
                     signature := some (blsAggregateSignatures
                       (timeoutQCPartialSignatures s)) } } }

/-- Modelled from the spec (§4.5): the block-construction tick.  The task is
re-armed at the same interval; phase A emits the `ConstructVoteQC` event of
the preferred qualifying safe block; phase B runs only when phase A produced
nothing; at most one event is emitted per tick.  A fire after `Stop`
observes a non-running status and is a no-op. -/
def FastHotStuffEventLoop.onBlockConstructionTaskExecuted (s : FastHotStuffEventLoop) :
    FastHotStuffEventLoop × List FastHotStuffEvent :=
  if s.status = .running then
    let s' := scheduleBlockConstructionTask s
    match pickPreferredBlock (qualifyingSafeBlocks s) with
    | some b => (s', [constructVoteQCEvent s b])
    | none =>
      if canConstructTimeoutQC s then
        match constructTimeoutQCEvent s with
        | some ev => (s', [ev])
        | none => (s', [])
      else (s', [])
  else (s, [])

/-- Modelled from the spec (§4.5 timeout fire handler, pinned by
TestTimeoutScheduledTaskExecuted): emits the `Timeout` event for the current
view and the tip's hash; the one-shot task is spent and not re-armed, and
the view does not change.  A fire after `Stop` observes a non-running status
and is a no-op. -/
def FastHotStuffEventLoop.onTimeoutTaskExecuted (s : FastHotStuffEventLoop) :
    FastHotStuffEventLoop × List FastHotStuffEvent :=
  if s.status = .running then
    ({ s with timeoutTaskScheduled := false },
      [{ eventType := .timeout
         view := s.currentView
         tipBlockHash := s.tip.blockHash
         tipBlockHeight := s.tip.height
         qc := none
         aggregateQC := none }])
  else (s, [])

theorem alookup_ainsert_self {α β : Type} [DecidableEq α] (l : List (α × β)) (k : α) (v : β) :
    alookup (ainsert l k v) k = some v := by
  induction l with
  | nil => simp [ainsert, alookup]
  | cons a t ih =>
    by_cases h : a.1 = k
    · simp [ainsert, alookup, h]
    · simp [ainsert, alookup, h, ih]

theorem alookup_ainsert_of_ne {α β : Type} [DecidableEq α] (l : List (α × β)) (k k' : α) (v : β)
    (h : k' ≠ k) : alookup (ainsert l k v) k' = alookup l k' := by
  have hk : ¬(k = k') := fun hh => h hh.symm
  induction l with
  | nil => simp [ainsert, alookup, hk]
  | cons a t ih =>
    by_cases ha : a.1 = k
    · have ha' : ¬(a.1 = k') := fun hh => h (by rw [← hh]; exact ha)
      simp [ainsert, alookup, ha, ha', hk]
    · simp [ainsert, alookup, ha, ih]

theorem ainsert_length_of_alookup_none {α β : Type} [DecidableEq α] (l : List (α × β)) (k : α)
    (v : β) (h : alookup l k = none) : (ainsert l k v).length = l.length + 1 := by
  induction l with
  | nil => simp [ainsert]
  | cons a t ih =>
    by_cases ha : a.1 = k
    · simp [alookup, ha] at h
    · simp only [alookup, ha, if_false] at h
      simp [ainsert, ha, ih h]

theorem foldl_ainsert_lookup_length (items : List (Nat × ValidatorI))
    (acc : List (Nat × (ValidatorI × Nat)))
    (hnd : (items.map (fun p => p.2.publicKey)).Nodup)
    (hacc : ∀ p ∈ items, alookup acc p.2.publicKey = none) :
    (items.foldl (fun acc p => ainsert acc p.2.publicKey (p.2, p.1)) acc).length
      = acc.length + items.length := by
  induction items generalizing acc with
  | nil => simp
  | cons a t ih =>
    simp only [List.foldl_cons]
    rw [List.map_cons] at hnd
    have hnd1 := (List.nodup_cons.mp hnd).1
    have hnd2 := (List.nodup_cons.mp hnd).2
    rw [ih _ hnd2]
    · rw [ainsert_length_of_alookup_none _ _ _ (hacc a (by simp))]
      simp [Nat.add_assoc, Nat.add_comm 1]
    · intro p hp
      rw [alookup_ainsert_of_ne]
      · exact hacc p (by simp [hp])
      · intro heq
        exact hnd1 (by rw [← heq]; exact List.mem_map_of_mem _ hp)

theorem buildValidatorLookup_length (vs : List ValidatorI)
    (h : (vs.map (·.publicKey)).Nodup) :
    (buildValidatorLookup vs).length = vs.length := by
  have hmap : vs.enum.map (fun p => p.2.publicKey) = vs.map (·.publicKey) := by
    rw [show (fun p : Nat × ValidatorI => p.2.publicKey)
          = (fun v : ValidatorI => v.publicKey) ∘ Prod.snd from rfl]
    rw [← List.map_map, List.enum_map_snd]
  have := foldl_ainsert_lookup_length vs.enum [] (by rw [hmap]; exact h)
    (by intro p _; rfl)
  simpa [buildValidatorLookup, List.enum_length] using this

theorem validateBlockWithValidators_lookup (bwv : BlockWithValidators) (bI : SafeBlockI)
    (h : validateBlockWithValidators bwv = some bI) :
    bI.validatorLookup = buildValidatorLookup bI.validatorSet := by
  unfold validateBlockWithValidators at h
  split at h
  case _ b vs hb hvs =>
    split at h
    · exact absurd h (by simp)
    · split at h
      case _ hh hq => cases h; rfl
      case _ => exact absurd h (by simp)
  case _ => exact absurd h (by simp)

theorem blsAggregateSignatures_singleton (σ : BLSSig) :
    blsAggregateSignatures [σ] = σ := by
  simp [blsAggregateSignatures]

theorem foldl_betterBlock_mem (x : SafeBlockI) (l : List SafeBlockI) :
    l.foldl betterBlock x ∈ x :: l := by
  induction l generalizing x with
  | nil => simp
  | cons y ys ih =>
    simp only [List.foldl_cons]
    have hmem := ih (betterBlock x y)
    have hbb : betterBlock x y = x ∨ betterBlock x y = y := by
      unfold betterBlock
      split
      · exact Or.inr rfl
      · exact Or.inl rfl
    rcases List.mem_cons.mp hmem with h | h
    · rcases hbb with hb | hb
      · exact List.mem_cons.mpr (Or.inl (h.trans hb))
      · exact List.mem_cons.mpr (Or.inr (by rw [h, hb]; simp))
    · exact List.mem_cons.mpr (Or.inr (List.mem_cons.mpr (Or.inr h)))

theorem pickPreferredBlock_mem (l : List SafeBlockI) (b : SafeBlockI)
    (h : pickPreferredBlock l = some b) : b ∈ l := by
  cases l with
  | nil => simp [pickPreferredBlock] at h
  | cons x rest =>
    simp only [pickPreferredBlock, Option.some.injEq] at h
    exact h ▸ foldl_betterBlock_mem x rest

theorem foldl_highQC_mem (x : QuorumCertificate) (l : List TimeoutSignerInfo) :
    l.foldl (fun best q => if best.view < q.highQC.view then q.highQC else best) x
      ∈ x :: l.map (·.highQC) := by
  induction l generalizing x with
  | nil => simp
  | cons y ys ih =>
    simp only [List.foldl_cons]
    have hmem := ih (if x.view < y.highQC.view then y.highQC else x)
    have hbb : (if x.view < y.highQC.view then y.highQC else x) = x ∨
        (if x.view < y.highQC.view then y.highQC else x) = y.highQC := by
      split
      · exact Or.inr rfl
      · exact Or.inl rfl
    rcases List.mem_cons.mp hmem with h | h
    · rcases hbb with hb | hb
      · exact List.mem_cons.mpr (Or.inl (h.trans hb))
      · rw [h, hb]; simp
    · simp only [List.map_cons]
      exact List.mem_cons.mpr (Or.inr (List.mem_cons.mpr (Or.inr h)))

theorem foldl_highQC_max (x : QuorumCertificate) (l : List TimeoutSignerInfo) :
    ∀ q ∈ x :: l.map (·.highQC),
      q.view ≤ (l.foldl (fun best q => if best.view < q.highQC.view then q.highQC else best) x).view := by
  induction l generalizing x with
  | nil =>
    intro q hq
    simp at hq
    simp [hq]
  | cons y ys ih =>
    intro q hq
    simp only [List.foldl_cons]
    have hx1 : x.view ≤ (if x.view < y.highQC.view then y.highQC else x).view := by
      split
      · exact Nat.le_of_lt (by assumption)
      · exact Nat.le_refl _
    have hx2 : y.highQC.view ≤ (if x.view < y.highQC.view then y.highQC else x).view := by
      split
      · exact Nat.le_refl _
      · exact Nat.le_of_not_lt (by assumption)
    have hacc := ih (if x.view < y.highQC.view then y.highQC else x)
    rcases List.mem_cons.mp hq with h | h
    · subst h
      exact Nat.le_trans hx1 (hacc _ (List.mem_cons_self _ _))
    · simp only [List.map_cons] at h
      rcases List.mem_cons.mp h with h | h
      · subst h
        exact Nat.le_trans hx2 (hacc _ (List.mem_cons_self _ _))
      · exact hacc q (List.mem_cons_of_mem _ h)

theorem range_map_getD {α : Type} (n i : Nat) (f : Nat → α) (d : α) (h : i < n) :
    ((List.range n).map f).getD i d = f i := by
  rw [List.getD_eq_getElem?_getD, List.getElem?_map, List.getElem?_range h]
  rfl

theorem constructTimeoutQCEvent_type (s : FastHotStuffEventLoop) (ev : FastHotStuffEvent)
    (h : constructTimeoutQCEvent s = some ev) : ev.eventType = .constructTimeoutQC := by
  unfold constructTimeoutQCEvent at h
  split at h
  · exact absurd h (by simp)
  · split at h
    · exact absurd h (by simp)
    · cases h; rfl

theorem processValidatorVote_timeoutTask (s : FastHotStuffEventLoop) (m : Option VoteMessage) :
    (s.ProcessValidatorVote m).1.timeoutTaskScheduled = s.timeoutTaskScheduled ∧
    (s.ProcessValidatorVote m).1.timeoutTaskDuration = s.timeoutTaskDuration := by
  unfold FastHotStuffEventLoop.ProcessValidatorVote
  dsimp only
  repeat' split
  all_goals exact ⟨rfl, rfl⟩

theorem processValidatorTimeout_timeoutTask (s : FastHotStuffEventLoop)
    (m : Option TimeoutMessage) :
    (s.ProcessValidatorTimeout m).1.timeoutTaskScheduled = s.timeoutTaskScheduled ∧
    (s.ProcessValidatorTimeout m).1.timeoutTaskDuration = s.timeoutTaskDuration := by
  unfold FastHotStuffEventLoop.ProcessValidatorTimeout
  dsimp only
  repeat' split
  all_goals exact ⟨rfl, rfl⟩

theorem onBlockConstruction_timeoutTask (s : FastHotStuffEventLoop) :
    (s.onBlockConstructionTaskExecuted).1.timeoutTaskScheduled = s.timeoutTaskScheduled := by
  unfold FastHotStuffEventLoop.onBlockConstructionTaskExecuted
  dsimp only
  repeat' split
  all_goals rfl

theorem advanceView_fields (s : FastHotStuffEventLoop) (hrun : s.status = .running) :
    (s.AdvanceView).1.status = .running ∧
    (s.AdvanceView).1.currentView = s.currentView + 1 ∧
    (s.AdvanceView).1.consecutiveTimeouts = s.consecutiveTimeouts + 1 ∧
    (s.AdvanceView).1.timeoutBaseDuration = s.timeoutBaseDuration ∧
    (s.AdvanceView).1.blockConstructionInterval = s.blockConstructionInterval ∧
    (s.AdvanceView).1.timeoutTaskDuration = s.timeoutBaseDuration * 2 ^ (s.consecutiveTimeouts + 1) ∧
    (s.AdvanceView).1.blockConstructionTaskDuration = s.blockConstructionInterval ∧
    (s.AdvanceView).1.timeoutTaskScheduled = true := by
  simp [FastHotStuffEventLoop.AdvanceView, hrun, scheduleTimeoutTask,
    scheduleBlockConstructionTask, evictStaleVotesAndTimeouts]

/-- C3: `is_super_majority_stake(s, t)` returns true exactly when the exact
integer inequality `3 * s ≥ 2 * t + 1` holds with `t` nonzero and `s ≤ t`;
it returns false whenever either argument is nil, the total stake is zero,
or the subset stake exceeds the total; and at `t = 1000`, `s = 666` is
rejected while `s = 667` is accepted. -/
theorem superMajorityStake_c3 :
    (∀ s t : Nat, isSuperMajorityStake (some s) (some t) = true ↔
        (t ≠ 0 ∧ s ≤ t ∧ 2 * t + 1 ≤ 3 * s)) ∧
    (∀ x : Option Nat, isSuperMajorityStake none x = false) ∧
    (∀ x : Option Nat, isSuperMajorityStake x none = false) ∧
    (∀ s : Nat, isSuperMajorityStake (some s) (some 0) = false) ∧
    (∀ s t : Nat, isSuperMajorityStake (some (t + s + 1)) (some t) = false) ∧
    isSuperMajorityStake (some 666) (some 1000) = false ∧
    isSuperMajorityStake (some 667) (some 1000) = true := by
  refine ⟨?_, ?_, ?_, ?_, ?_, by decide, by decide⟩
  · intro s t
    by_cases h0 : t = 0
    · simp [isSuperMajorityStake, h0]
    · by_cases hst : t < s
      · simp only [isSuperMajorityStake, h0, if_false, hst, if_true]
        constructor
        · intro h; exact absurd h (by simp)
        · intro h; exact absurd h.2.1 (by omega)
      · simp only [isSuperMajorityStake, h0, if_false, hst, if_true, decide_eq_true_eq]
        constructor
        · intro h; exact ⟨h0, Nat.le_of_not_lt hst, h⟩
        · intro h; exact h.2.2
  · intro x; cases x <;> rfl
  · intro x; cases x <;> rfl
  · intro s; simp [isSuperMajorityStake]
  · intro s t
    by_cases h0 : t = 0
    · simp [isSuperMajorityStake, h0]
    · have hst : t < t + s + 1 := by omega
      simp [isSuperMajorityStake, h0, hst]

/-- Modelled from the spec (§4.5 `AdvanceView` iterated): `k` consecutive
`AdvanceView` calls. -/
def advanceViewIter : Nat → FastHotStuffEventLoop → FastHotStuffEventLoop
  | 0, s => s
  | k + 1, s => advanceViewIter k (s.AdvanceView).1

theorem advanceViewIter_fields (k : Nat) :
    ∀ s : FastHotStuffEventLoop, s.status = .running →
    (advanceViewIter k s).status = .running ∧
    (advanceViewIter k s).consecutiveTimeouts = s.consecutiveTimeouts + k ∧
    (advanceViewIter k s).timeoutBaseDuration = s.timeoutBaseDuration ∧
    (advanceViewIter k s).blockConstructionInterval = s.blockConstructionInterval ∧
    (advanceViewIter k s).timeoutTaskDuration
      = (if k = 0 then s.timeoutTaskDuration
         else s.timeoutBaseDuration * 2 ^ (s.consecutiveTimeouts + k)) ∧
    (advanceViewIter k s).blockConstructionTaskDuration
      = (if k = 0 then s.blockConstructionTaskDuration else s.blockConstructionInterval) := by
  induction k with
  | zero => intro s h; simp [advanceViewIter, h]
  | succ n ih =>
    intro s hrun
    have hstep := advanceView_fields s hrun
    have hnext := ih (s.AdvanceView).1 hstep.1
    rcases hnext with ⟨a, b, c, d, e, f⟩
    rcases hstep with ⟨_, _, h3, h4, h5, h6, h7, _⟩
    simp only [advanceViewIter]
    refine ⟨a, ?_, c.trans h4, d.trans h5, ?_, ?_⟩
    · rw [b, h3]; omega
    · rw [e]
      by_cases hn : n = 0
      · subst hn
        simp only [if_true, Nat.succ_ne_zero, if_false, h6, h4]
      · have harg : s.consecutiveTimeouts + 1 + n = s.consecutiveTimeouts + (n + 1) := by omega
        simp only [hn, if_false, Nat.succ_ne_zero]
        rw [h4, h3, harg]
    · rw [f]
      by_cases hn : n = 0
      · subst hn
        simp only [if_true, Nat.succ_ne_zero, if_false, h7]
      · simp only [hn, if_false, Nat.succ_ne_zero, h5]

/-- C6: after `k` consecutive `AdvanceView` calls from a state whose timers
were just armed with the base values (as `Start` and a successful
`ProcessTipBlock` do), the timeout timer's requested duration is
`timeout_base_duration * 2 ^ k` while the block-construction timer stays at
`block_construction_interval`; `Start` arms the base values with the
consecutive-timeout counter at zero, and a successful `ProcessTipBlock`
resets the counter to zero and re-arms the base duration. -/
theorem timeoutBackoff_c6 (s : FastHotStuffEventLoop) (hrun : s.status = .running)
    (hk : s.consecutiveTimeouts = 0)
    (hd : s.timeoutTaskDuration = s.timeoutBaseDuration)
    (hb : s.blockConstructionTaskDuration = s.blockConstructionInterval) :
    (∀ k, (advanceViewIter k s).timeoutTaskDuration = s.timeoutBaseDuration * 2 ^ k ∧
          (advanceViewIter k s).blockConstructionTaskDuration = s.blockConstructionInterval) ∧
    (∀ s0 : FastHotStuffEventLoop, s0.status = .initialized →
        (s0.Start).1.consecutiveTimeouts = 0 ∧
        (s0.Start).1.timeoutTaskDuration = s0.timeoutBaseDuration ∧
        (s0.Start).1.blockConstructionTaskDuration = s0.blockConstructionInterval ∧
        (s0.Start).1.status = .running) ∧
    (∀ k tip safeBlocks,
        ((advanceViewIter k s).ProcessTipBlock tip safeBlocks).2 = none →
        ((advanceViewIter k s).ProcessTipBlock tip safeBlocks).1.consecutiveTimeouts = 0 ∧
        ((advanceViewIter k s).ProcessTipBlock tip safeBlocks).1.timeoutTaskDuration
          = s.timeoutBaseDuration) := by
  refine ⟨?_, ?_, ?_⟩
  · intro k
    have hinv := advanceViewIter_fields k s hrun
    rcases hinv with ⟨_, _, _, _, e, f⟩
    constructor
    · rw [e]
      by_cases hn : k = 0
      · subst hn; simp [hd]
      · simp [hn, hk]
    · rw [f]
      by_cases hn : k = 0
      · subst hn; simp [hb]
      · simp [hn]
  · intro s0 h0
    simp [FastHotStuffEventLoop.Start, h0, scheduleTimeoutTask, scheduleBlockConstructionTask]
  · intro k tip safeBlocks hsucc
    have hinv := advanceViewIter_fields k s hrun
    rcases hinv with ⟨hstat, _, hbase, _, _, _⟩
    rcases h1 : validateBlockWithValidators tip with _ | tipI
    · rw [FastHotStuffEventLoop.ProcessTipBlock, if_pos hstat, h1] at hsucc
      simp at hsucc
    · rcases h2 : safeBlocks.mapM validateBlockWithValidators with _ | safeI
      · rw [FastHotStuffEventLoop.ProcessTipBlock, if_pos hstat, h1, h2] at hsucc
        simp at hsucc
      · rw [FastHotStuffEventLoop.ProcessTipBlock, if_pos hstat, h1, h2]
        simp [scheduleTimeoutTask, scheduleBlockConstructionTask, evictStaleVotesAndTimeouts,
          hbase]

/-- Closed instance of `timeoutBackoff_c6`: a concrete running loop with base
durations armed reaches duration `base * 2 ^ 3` after three `AdvanceView`
calls. -/
theorem timeoutBackoff_c6_witness :
    (advanceViewIter 3
      { status := .running, currentView := 3, tip := emptySafeBlockI, safeBlocks := [],
        votesSeen := [], timeoutsSeen := [], blockConstructionInterval := 5,
        timeoutBaseDuration := 7, blockConstructionTaskDuration := 5,
        blockConstructionTaskScheduled := true, timeoutTaskDuration := 7,
        timeoutTaskScheduled := true, consecutiveTimeouts := 0 }).timeoutTaskDuration
      = 7 * 2 ^ 3 :=
  (timeoutBackoff_c6 _ rfl rfl rfl rfl).1 3 |>.1

/-- C5: after any view advancement (`AdvanceView` or a successful
`ProcessTipBlock`) that sets the current view to `V`, every retained bucket
of `votes_seen` and `timeouts_seen` has view component `≥ V - 1`
(equivalently `V ≤ view + 1`), and every previously present bucket with view
component `≥ V - 1` is retained. -/
theorem viewAdvancement_eviction_c5 (s : FastHotStuffEventLoop)
    (hrun : s.status = .running) :
    ((s.AdvanceView).1.currentView = s.currentView + 1) ∧
    (∀ kv ∈ (s.AdvanceView).1.votesSeen, (s.AdvanceView).1.currentView ≤ kv.1.keyView + 1) ∧
    (∀ kv ∈ s.votesSeen, (s.AdvanceView).1.currentView ≤ kv.1.keyView + 1 →
        kv ∈ (s.AdvanceView).1.votesSeen) ∧
    (∀ kv ∈ (s.AdvanceView).1.timeoutsSeen, (s.AdvanceView).1.currentView ≤ kv.1 + 1) ∧
    (∀ kv ∈ s.timeoutsSeen, (s.AdvanceView).1.currentView ≤ kv.1 + 1 →
        kv ∈ (s.AdvanceView).1.timeoutsSeen) ∧
    (∀ tip safeBlocks, (s.ProcessTipBlock tip safeBlocks).2 = none →
        ((∀ kv ∈ (s.ProcessTipBlock tip safeBlocks).1.votesSeen,
            (s.ProcessTipBlock tip safeBlocks).1.currentView ≤ kv.1.keyView + 1) ∧
         (∀ kv ∈ s.votesSeen,
            (s.ProcessTipBlock tip safeBlocks).1.currentView ≤ kv.1.keyView + 1 →
            kv ∈ (s.ProcessTipBlock tip safeBlocks).1.votesSeen) ∧
         (∀ kv ∈ (s.ProcessTipBlock tip safeBlocks).1.timeoutsSeen,
            (s.ProcessTipBlock tip safeBlocks).1.currentView ≤ kv.1 + 1) ∧
         (∀ kv ∈ s.timeoutsSeen,
            (s.ProcessTipBlock tip safeBlocks).1.currentView ≤ kv.1 + 1 →
            kv ∈ (s.ProcessTipBlock tip safeBlocks).1.timeoutsSeen))) := by
  have hV : (s.AdvanceView).1.currentView = s.currentView + 1 := by
    simp [FastHotStuffEventLoop.AdvanceView, hrun, evictStaleVotesAndTimeouts,
      scheduleTimeoutTask, scheduleBlockConstructionTask]
  have hVotes : (s.AdvanceView).1.votesSeen
      = s.votesSeen.filter (fun kv => decide (s.currentView + 1 ≤ kv.1.keyView + 1)) := by
    simp [FastHotStuffEventLoop.AdvanceView, hrun, evictStaleVotesAndTimeouts,
      scheduleTimeoutTask, scheduleBlockConstructionTask]
  have hTimeouts : (s.AdvanceView).1.timeoutsSeen
      = s.timeoutsSeen.filter (fun kv => decide (s.currentView + 1 ≤ kv.1 + 1)) := by
    simp [FastHotStuffEventLoop.AdvanceView, hrun, evictStaleVotesAndTimeouts,
      scheduleTimeoutTask, scheduleBlockConstructionTask]
  refine ⟨hV, ?_, ?_, ?_, ?_, ?_⟩
  · intro kv hkv
    rw [hVotes] at hkv
    rw [hV]
    exact of_decide_eq_true (List.mem_filter.mp hkv).2
  · intro kv hkv hle
    rw [hVotes]
    rw [hV] at hle
    exact List.mem_filter.mpr ⟨hkv, decide_eq_true hle⟩
  · intro kv hkv
    rw [hTimeouts] at hkv
    rw [hV]
    exact of_decide_eq_true (List.mem_filter.mp hkv).2
  · intro kv hkv hle
    rw [hTimeouts]
    rw [hV] at hle
    exact List.mem_filter.mpr ⟨hkv, decide_eq_true hle⟩
  · intro tip safeBlocks hsucc
    rcases h1 : validateBlockWithValidators tip with _ | tipI
    · rw [FastHotStuffEventLoop.ProcessTipBlock, if_pos hrun, h1] at hsucc
      simp at hsucc
    rcases h2 : safeBlocks.mapM validateBlockWithValidators with _ | safeI
    · rw [FastHotStuffEventLoop.ProcessTipBlock, if_pos hrun, h1, h2] at hsucc
      simp at hsucc
    have hV' : (s.ProcessTipBlock tip safeBlocks).1.currentView
        = max s.currentView (tipI.view + 1) := by
      rw [FastHotStuffEventLoop.ProcessTipBlock, if_pos hrun, h1, h2]
      simp [scheduleTimeoutTask, scheduleBlockConstructionTask, evictStaleVotesAndTimeouts]
    have hVotes' : (s.ProcessTipBlock tip safeBlocks).1.votesSeen
        = s.votesSeen.filter
            (fun kv => decide (max s.currentView (tipI.view + 1) ≤ kv.1.keyView + 1)) := by
      rw [FastHotStuffEventLoop.ProcessTipBlock, if_pos hrun, h1, h2]
      simp [scheduleTimeoutTask, scheduleBlockConstructionTask, evictStaleVotesAndTimeouts]
    have hTimeouts' : (s.ProcessTipBlock tip safeBlocks).1.timeoutsSeen
        = s.timeoutsSeen.filter
            (fun kv => decide (max s.currentView (tipI.view + 1) ≤ kv.1 + 1)) := by
      rw [FastHotStuffEventLoop.ProcessTipBlock, if_pos hrun, h1, h2]
      simp [scheduleTimeoutTask, scheduleBlockConstructionTask, evictStaleVotesAndTimeouts]
    refine ⟨?_, ?_, ?_, ?_⟩
    · intro kv hkv
      rw [hVotes'] at hkv
      rw [hV']
      exact of_decide_eq_true (List.mem_filter.mp hkv).2
    · intro kv hkv hle
      rw [hVotes']
      rw [hV'] at hle
      exact List.mem_filter.mpr ⟨hkv, decide_eq_true hle⟩
    · intro kv hkv
      rw [hTimeouts'] at hkv
      rw [hV']
      exact of_decide_eq_true (List.mem_filter.mp hkv).2
    · intro kv hkv hle
      rw [hTimeouts']
      rw [hV'] at hle
      exact List.mem_filter.mpr ⟨hkv, decide_eq_true hle⟩

/-- A concrete running loop at view 4 with vote and timeout buckets at views
2..5, used to instantiate `viewAdvancement_eviction_c5`. -/
def evictionExampleLoop : FastHotStuffEventLoop :=
  { status := .running, currentView := 4, tip := emptySafeBlockI, safeBlocks := [],
    votesSeen := [(.vote 2 7, []), (.vote 3 7, []), (.vote 4 7, []), (.vote 5 7, [])],
    timeoutsSeen := [(2, []), (3, []), (4, []), (5, [])],
    blockConstructionInterval := 5, timeoutBaseDuration := 7,
    blockConstructionTaskDuration := 5, blockConstructionTaskScheduled := true,
    timeoutTaskDuration := 7, timeoutTaskScheduled := true,
    consecutiveTimeouts := 0 }

/-- Closed instance of `viewAdvancement_eviction_c5`: `AdvanceView` on the
concrete loop (to view 5) retains the view-4 vote bucket. -/
theorem viewAdvancement_eviction_c5_witness :
    (evictionExampleLoop.AdvanceView).1.currentView = 5 ∧
    (⟨.vote 4 7, []⟩ : SigPayload × List (Nat × VoteMessage)) ∈
      (evictionExampleLoop.AdvanceView).1.votesSeen := by
  constructor
  · exact (viewAdvancement_eviction_c5 evictionExampleLoop rfl).1
  · exact (viewAdvancement_eviction_c5 evictionExampleLoop rfl).2.2.1 _ (by decide) (by decide)

/-- C4: vote and timeout ingestion on a running loop checks, in order:
well-formedness (malformed-message error), BLS signature over the bare
payload (`InvalidSignature`), freshness against the current view
(`StaleView`), per-signer per-view vote uniqueness regardless of block hash
(`AlreadyVotedForView`), and per-signer per-view timeout uniqueness
(`AlreadyTimedOutForView`); when all checks pass the message is recorded in
its pool, and every failure returns the state unchanged. -/
theorem messageIngestion_c4 (s : FastHotStuffEventLoop) (hrun : s.status = .running) :
    (∀ m : Option VoteMessage, isProperlyFormedVote m = false →
        s.ProcessValidatorVote m = (s, some .malformedVote)) ∧
    (∀ v : VoteMessage, isProperlyFormedVote (some v) = true →
        ((voteSignatureValid v = false →
            s.ProcessValidatorVote (some v) = (s, some .invalidSignature)) ∧
         (voteSignatureValid v = true → v.view < s.currentView →
            s.ProcessValidatorVote (some v) = (s, some .staleView)) ∧
         (voteSignatureValid v = true → s.currentView ≤ v.view →
            hasVotedForView s (v.publicKey.getD 0) v.view = true →
            s.ProcessValidatorVote (some v) = (s, some .alreadyVotedForView)) ∧
         (voteSignatureValid v = true → s.currentView ≤ v.view →
            hasVotedForView s (v.publicKey.getD 0) v.view = false →
            hasTimedOutForView s (v.publicKey.getD 0) v.view = true →
            s.ProcessValidatorVote (some v) = (s, some .alreadyTimedOutForView)) ∧
         (voteSignatureValid v = true → s.currentView ≤ v.view →
            hasVotedForView s (v.publicKey.getD 0) v.view = false →
            hasTimedOutForView s (v.publicKey.getD 0) v.view = false →
            ((s.ProcessValidatorVote (some v)).2 = none ∧
             (s.ProcessValidatorVote (some v)).1.timeoutsSeen = s.timeoutsSeen ∧
             alookup ((alookup (s.ProcessValidatorVote (some v)).1.votesSeen
                 (GetVoteSignaturePayload v.view (v.blockHash.getD 0))).getD [])
               (v.publicKey.getD 0) = some v)))) ∧
    (∀ m : Option TimeoutMessage, isProperlyFormedTimeout m = false →
        s.ProcessValidatorTimeout m = (s, some .malformedTimeout)) ∧
    (∀ t : TimeoutMessage, isProperlyFormedTimeout (some t) = true →
        ((timeoutSignatureValid t = false →
            s.ProcessValidatorTimeout (some t) = (s, some .invalidSignature)) ∧
         (timeoutSignatureValid t = true → t.view < s.currentView →
            s.ProcessValidatorTimeout (some t) = (s, some .staleView)) ∧
         (timeoutSignatureValid t = true → s.currentView ≤ t.view →
            hasVotedForView s (t.publicKey.getD 0) t.view = true →
            s.ProcessValidatorTimeout (some t) = (s, some .alreadyVotedForView)) ∧
         (timeoutSignatureValid t = true → s.currentView ≤ t.view →
            hasVotedForView s (t.publicKey.getD 0) t.view = false →
            hasTimedOutForView s (t.publicKey.getD 0) t.view = true →
            s.ProcessValidatorTimeout (some t) = (s, some .alreadyTimedOutForView)) ∧
         (timeoutSignatureValid t = true → s.currentView ≤ t.view →
            hasVotedForView s (t.publicKey.getD 0) t.view = false →
            hasTimedOutForView s (t.publicKey.getD 0) t.view = false →
            ((s.ProcessValidatorTimeout (some t)).2 = none ∧
             (s.ProcessValidatorTimeout (some t)).1.votesSeen = s.votesSeen ∧
             alookup ((alookup (s.ProcessValidatorTimeout (some t)).1.timeoutsSeen
                 t.view).getD []) (t.publicKey.getD 0) = some t)))) := by
  refine ⟨?_, ?_, ?_, ?_⟩
  · intro m hm
    simp [FastHotStuffEventLoop.ProcessValidatorVote, hrun, hm]
  · intro v hform
    refine ⟨?_, ?_, ?_, ?_, ?_⟩
    · intro hsig
      simp [FastHotStuffEventLoop.ProcessValidatorVote, hrun, hform, hsig]
    · intro hsig hstale
      simp [FastHotStuffEventLoop.ProcessValidatorVote, hrun, hform, hsig, hstale]
    · intro hsig hfresh hvoted
      simp [FastHotStuffEventLoop.ProcessValidatorVote, hrun, hform, hsig,
        Nat.not_lt.mpr hfresh, hvoted]
    · intro hsig hfresh hvoted htimed
      simp [FastHotStuffEventLoop.ProcessValidatorVote, hrun, hform, hsig,
        Nat.not_lt.mpr hfresh, hvoted, htimed]
    · intro hsig hfresh hvoted htimed
      simp only [FastHotStuffEventLoop.ProcessValidatorVote, hrun, if_pos rfl, hform, if_true,
        Option.getD_some, hsig, Nat.not_lt.mpr hfresh, if_neg, hvoted, htimed,
        Bool.false_eq_true, if_false]
      refine ⟨trivial, trivial, ?_⟩
      rw [alookup_ainsert_self]
      simp [alookup_ainsert_self]
  · intro m hm
    simp [FastHotStuffEventLoop.ProcessValidatorTimeout, hrun, hm]
  · intro t hform
    refine ⟨?_, ?_, ?_, ?_, ?_⟩
    · intro hsig
      simp [FastHotStuffEventLoop.ProcessValidatorTimeout, hrun, hform, hsig]
    · intro hsig hstale
      simp [FastHotStuffEventLoop.ProcessValidatorTimeout, hrun, hform, hsig, hstale]
    · intro hsig hfresh hvoted
      simp [FastHotStuffEventLoop.ProcessValidatorTimeout, hrun, hform, hsig,
        Nat.not_lt.mpr hfresh, hvoted]
    · intro hsig hfresh hvoted htimed
      simp [FastHotStuffEventLoop.ProcessValidatorTimeout, hrun, hform, hsig,
        Nat.not_lt.mpr hfresh, hvoted, htimed]
    · intro hsig hfresh hvoted htimed
      simp only [FastHotStuffEventLoop.ProcessValidatorTimeout, hrun, if_pos rfl, hform, if_true,
        Option.getD_some, hsig, Nat.not_lt.mpr hfresh, if_neg, hvoted, htimed,
        Bool.false_eq_true, if_false]
      refine ⟨trivial, trivial, ?_⟩
      rw [alookup_ainsert_self]
      simp [alookup_ainsert_self]

/-- A concrete running loop for instantiating `messageIngestion_c4`. -/
def ingestionExampleLoop : FastHotStuffEventLoop :=
  { status := .running, currentView := 3, tip := emptySafeBlockI, safeBlocks := [],
    votesSeen := [], timeoutsSeen := [],
    blockConstructionInterval := 5, timeoutBaseDuration := 7,
    blockConstructionTaskDuration := 5, blockConstructionTaskScheduled := true,
    timeoutTaskDuration := 7, timeoutTaskScheduled := true,
    consecutiveTimeouts := 0 }

/-- A well-formed vote for view 3 whose signature is over the bare payload. -/
def ingestionExampleVote : VoteMessage :=
  ⟨3, some 11, some 1, some (blsSign 1 (.plain (GetVoteSignaturePayload 3 11)))⟩

/-- Closed instance of `messageIngestion_c4`: a nil vote is rejected as
malformed and a properly signed fresh vote is accepted. -/
theorem messageIngestion_c4_witness :
    ingestionExampleLoop.ProcessValidatorVote none
      = (ingestionExampleLoop, some .malformedVote) ∧
    (ingestionExampleLoop.ProcessValidatorVote (some ingestionExampleVote)).2 = none := by
  constructor
  · exact (messageIngestion_c4 ingestionExampleLoop rfl).1 none (by decide)
  · exact (((messageIngestion_c4 ingestionExampleLoop rfl).2.1 ingestionExampleVote
      (by decide)).2.2.2.2 (by decide) (by decide) (by decide) (by decide)).1

/-- C1: on a block-construction tick of a running loop, if the preferred
safe block `b` (highest view, block-hash tie-break, among those whose
recorded votes carry super-majority stake) exists, exactly one
`ConstructVoteQC` event is emitted: its view is the current view, its tip
hash and height are `b`'s, its QC carries `b`'s view and hash, its signers
bitset marks exactly the positions of the voting validators, and its
signature is the BLS aggregate of the recorded partial signatures (equal to
the single partial signature when there is one voter).  If no safe block
has super-majority votes, no `ConstructVoteQC` event is emitted, and if
additionally no timeout QC can be built, no event at all is emitted. -/
theorem voteQCConstruction_c1 (s : FastHotStuffEventLoop) (hrun : s.status = .running) :
    (∀ b, pickPreferredBlock (qualifyingSafeBlocks s) = some b →
        ((s.onBlockConstructionTaskExecuted).2 = [constructVoteQCEvent s b] ∧
         b ∈ s.safeBlocks ∧
         canConstructVoteQC s b = true ∧
         constructVoteQCEvent s b = ⟨.constructVoteQC, s.currentView, b.blockHash, b.height,
           some ⟨b.view, some b.blockHash,
             some ⟨some (voteQCBits s b),
               some (blsAggregateSignatures (voteQCPartialSignatures s b))⟩⟩, none⟩ ∧
         (∀ i, i < b.validatorSet.length →
           (voteQCBits s b).getD i false =
             (match b.validatorSet.get? i with
              | some v => (alookup (blockVoteBucket s b) v.publicKey).isSome
              | none => false)) ∧
         (∀ σ : BLSSig, voteQCPartialSignatures s b = [σ] →
             blsAggregateSignatures (voteQCPartialSignatures s b) = σ))) ∧
    (qualifyingSafeBlocks s = [] →
        ((∀ e ∈ (s.onBlockConstructionTaskExecuted).2, e.eventType = .constructTimeoutQC) ∧
         (canConstructTimeoutQC s = false → (s.onBlockConstructionTaskExecuted).2 = []))) := by
  constructor
  · intro b hb
    have hmemq : b ∈ qualifyingSafeBlocks s := pickPreferredBlock_mem _ _ hb
    simp only [qualifyingSafeBlocks, List.mem_filter] at hmemq
    refine ⟨?_, hmemq.1, hmemq.2, rfl, ?_, ?_⟩
    · simp [FastHotStuffEventLoop.onBlockConstructionTaskExecuted, hrun, hb]
    · intro i hi
      exact range_map_getD _ _ _ _ hi
    · intro σ hσ
      rw [hσ, blsAggregateSignatures_singleton]
  · intro hq
    have hpick : pickPreferredBlock (qualifyingSafeBlocks s) = none := by
      rw [hq]; rfl
    constructor
    · intro e he
      simp only [FastHotStuffEventLoop.onBlockConstructionTaskExecuted, hrun, if_pos rfl,
        hpick] at he
      by_cases hc : canConstructTimeoutQC s
      · simp only [hc, if_true] at he
        rcases hev : constructTimeoutQCEvent s with _ | ev
        · rw [hev] at he; simp at he
        · rw [hev] at he
          simp only [List.mem_singleton] at he
          exact he ▸ constructTimeoutQCEvent_type s ev hev
      · simp only [Bool.not_eq_true] at hc
        simp [hc] at he
    · intro hc
      simp [FastHotStuffEventLoop.onBlockConstructionTaskExecuted, hrun, hpick, hc]

/-- Concrete validators, block and state mirroring scenario S1 (stakes 70
and 30, validator 0 voted on the tip at view 2, current view 3). -/
def voteQCExampleBlock : SafeBlockI :=
  ⟨11, 2, 1, ⟨1, some 10, some ⟨some [true], some (blsSign 1 (.plain (.vote 1 10)))⟩⟩,
    [⟨1, 70⟩, ⟨2, 30⟩], buildValidatorLookup [⟨1, 70⟩, ⟨2, 30⟩]⟩

/-- The S1 vote of validator 0 (key 1, stake 70) on the tip payload. -/
def voteQCExampleVote : VoteMessage :=
  ⟨2, some 11, some 1, some (blsSign 1 (.plain (GetVoteSignaturePayload 2 11)))⟩

/-- The S1 running loop: one safe block, one recorded vote of stake 70/100. -/
def voteQCExampleLoop : FastHotStuffEventLoop :=
  { status := .running, currentView := 3, tip := voteQCExampleBlock,
    safeBlocks := [voteQCExampleBlock],
    votesSeen := [(GetVoteSignaturePayload 2 11, [(1, voteQCExampleVote)])],
    timeoutsSeen := [],
    blockConstructionInterval := 5, timeoutBaseDuration := 7,
    blockConstructionTaskDuration := 5, blockConstructionTaskScheduled := true,
    timeoutTaskDuration := 7, timeoutTaskScheduled := true,
    consecutiveTimeouts := 0 }

/-- Closed instance of `voteQCConstruction_c1` at the S1 state: exactly the
expected event is emitted, and its aggregated signature is validator 0's
partial signature. -/
theorem voteQCConstruction_c1_witness :
    (voteQCExampleLoop.onBlockConstructionTaskExecuted).2
      = [constructVoteQCEvent voteQCExampleLoop voteQCExampleBlock] ∧
    blsAggregateSignatures (voteQCPartialSignatures voteQCExampleLoop voteQCExampleBlock)
      = blsSign 1 (.plain (GetVoteSignaturePayload 2 11)) := by
  constructor
  · exact ((voteQCConstruction_c1 voteQCExampleLoop rfl).1 voteQCExampleBlock (by decide)).1
  · exact ((voteQCConstruction_c1 voteQCExampleLoop rfl).1 voteQCExampleBlock
      (by decide)).2.2.2.2.2 _ (by decide)

/-- C2: on a block-construction tick of a running loop where no vote QC can
be built, if the timeouts recorded at view `current_view - 1` carry
super-majority stake of the current tip's validator set, exactly one
`ConstructTimeoutQC` event is emitted: its view is the current view, its
aggregate QC's view is `current_view - 1`, its high QC is — unchanged — the
highest-view high QC among the recorded timeouts, its high-QC-views list
reports each signer's high-QC view in bitset order, its signers bitset marks
all timing-out validators, and its tip hash and height are those of the safe
block referenced by the chosen high QC. -/
theorem timeoutQCConstruction_c2 (s : FastHotStuffEventLoop) (hq : QuorumCertificate)
    (tb : SafeBlockI) (hrun : s.status = .running)
    (hpick : pickPreferredBlock (qualifyingSafeBlocks s) = none)
    (hcan : canConstructTimeoutQC s = true)
    (hhq : timeoutHighQC s = some hq)
    (htb : s.safeBlocks.find? (fun b => b.blockHash == hq.blockHash.getD 0) = some tb) :
    (s.onBlockConstructionTaskExecuted).2
      = [⟨.constructTimeoutQC, s.currentView, tb.blockHash, tb.height, none,
          some ⟨s.currentView - 1, some hq, timeoutHighQCViews s,
            some ⟨some (timeoutQCBits s),
              some (blsAggregateSignatures (timeoutQCPartialSignatures s))⟩⟩⟩] ∧
    hq ∈ (timeoutSigners s).map (·.highQC) ∧
    (∀ q ∈ (timeoutSigners s).map (·.highQC), q.view ≤ hq.view) ∧
    timeoutHighQCViews s = (timeoutSigners s).map (·.highQC.view) ∧
    tb ∈ s.safeBlocks ∧
    (tb.blockHash == hq.blockHash.getD 0) = true ∧
    (∀ i, i < s.tip.validatorSet.length →
      (timeoutQCBits s).getD i false =
        (match s.tip.validatorSet.get? i with
         | some v => ((alookup (timeoutBucket s) v.publicKey).bind (·.highQC)).isSome
         | none => false)) := by
  have hev : constructTimeoutQCEvent s
      = some ⟨.constructTimeoutQC, s.currentView, tb.blockHash, tb.height, none,
          some ⟨s.currentView - 1, some hq, timeoutHighQCViews s,
            some ⟨some (timeoutQCBits s),
              some (blsAggregateSignatures (timeoutQCPartialSignatures s))⟩⟩⟩ := by
    simp only [constructTimeoutQCEvent, hhq, htb]
  have hfs : (tb.blockHash == hq.blockHash.getD 0) = true := by
    have h := List.find?_some htb
    simpa using h
  refine ⟨?_, ?_, ?_, rfl, List.mem_of_find?_eq_some htb, hfs, ?_⟩
  · simp [FastHotStuffEventLoop.onBlockConstructionTaskExecuted, hrun, hpick, hcan, hev]
  · rcases hs : timeoutSigners s with _ | ⟨x, rest⟩
    · rw [timeoutHighQC, hs] at hhq
      simp at hhq
    · rw [timeoutHighQC, hs] at hhq
      simp only [Option.some.injEq] at hhq
      rw [List.map_cons, ← hhq]
      exact foldl_highQC_mem x.highQC rest
  · intro q hqmem
    rcases hs : timeoutSigners s with _ | ⟨x, rest⟩
    · rw [hs] at hqmem
      simp at hqmem
    · rw [timeoutHighQC, hs] at hhq
      simp only [Option.some.injEq] at hhq
      rw [hs, List.map_cons] at hqmem
      rw [← hhq]
      exact foldl_highQC_max x.highQC rest q hqmem
  · intro i hi
    exact range_map_getD _ _ _ _ hi

/-- Concrete blocks, validators and state mirroring scenario S3: tip `B2`
carries a QC for `B1`; validators 0 (stake 70) and 1 (stake 30) both timed
out at view 4 reporting high-QC views 1 and 2; current view is 5. -/
def timeoutQCExampleQC1 : QuorumCertificate :=
  ⟨1, some 10, some ⟨some [true], some (blsSign 1 (.plain (.vote 1 10)))⟩⟩

/-- The S3 QC carried by `B2`, pointing at `B1` (hash 11) from view 2. -/
def timeoutQCExampleQC2 : QuorumCertificate :=
  ⟨2, some 11, some ⟨some [true], some (blsSign 1 (.plain (.vote 2 11)))⟩⟩

/-- The S3 safe block `B1`. -/
def timeoutQCExampleBlock1 : SafeBlockI :=
  ⟨11, 2, 1, timeoutQCExampleQC1, [⟨1, 70⟩, ⟨2, 30⟩], buildValidatorLookup [⟨1, 70⟩, ⟨2, 30⟩]⟩

/-- The S3 safe block `B2`. -/
def timeoutQCExampleBlock2 : SafeBlockI :=
  ⟨12, 3, 2, timeoutQCExampleQC2, [⟨1, 70⟩, ⟨2, 30⟩], buildValidatorLookup [⟨1, 70⟩, ⟨2, 30⟩]⟩

/-- The S3 running loop with both timeouts recorded for view 4. -/
def timeoutQCExampleLoop : FastHotStuffEventLoop :=
  { status := .running, currentView := 5, tip := timeoutQCExampleBlock2,
    safeBlocks := [timeoutQCExampleBlock1, timeoutQCExampleBlock2],
    votesSeen := [],
    timeoutsSeen := [(4,
      [(1, ⟨4, some timeoutQCExampleQC1, some 1,
          some (blsSign 1 (.plain (GetTimeoutSignaturePayload 4 1)))⟩),
       (2, ⟨4, some timeoutQCExampleQC2, some 2,
          some (blsSign 2 (.plain (GetTimeoutSignaturePayload 4 2)))⟩)])],
    blockConstructionInterval := 5, timeoutBaseDuration := 7,
    blockConstructionTaskDuration := 5, blockConstructionTaskScheduled := true,
    timeoutTaskDuration := 7, timeoutTaskScheduled := true,
    consecutiveTimeouts := 0 }

/-- Closed instance of `timeoutQCConstruction_c2` at the S3 state: the
emitted event extends `B1` (hash 11, height 1) with aggregate QC view 4,
high QC `B2`'s QC, and views `[1, 2]`. -/
theorem timeoutQCConstruction_c2_witness :
    (timeoutQCExampleLoop.onBlockConstructionTaskExecuted).2
      = [⟨.constructTimeoutQC, 5, 11, 1, none,
          some ⟨4, some timeoutQCExampleQC2, timeoutHighQCViews timeoutQCExampleLoop,
            some ⟨some (timeoutQCBits timeoutQCExampleLoop),
              some (blsAggregateSignatures
                (timeoutQCPartialSignatures timeoutQCExampleLoop))⟩⟩⟩] :=
  (timeoutQCConstruction_c2 timeoutQCExampleLoop timeoutQCExampleQC2 timeoutQCExampleBlock1
    rfl (by decide) (by decide) (by decide) (by decide)).1

/-- The validator set of TestIsValidSuperMajorityAggregateQuorumCertificate:
stakes 3, 2, 1 (total 6). -/
def aggQCExampleValidators : List (Option Validator) :=
  [some ⟨some 1, some 3⟩, some ⟨some 2, some 2⟩, some ⟨some 3, some 1⟩]

/-- The high QC embedded in the test's accepted aggregate QC: signed by
validator 1 alone (stake 3 of 6), hence NOT a valid super-majority QC. -/
def aggQCExampleHighQC : QuorumCertificate :=
  ⟨10, some 77, some ⟨some [true], some (blsSign 1 (.plain (GetVoteSignaturePayload 10 77)))⟩⟩

/-- The test's accepted aggregate QC at view 11: validators 1 and 2 (stake
5 of 6) with reported high-QC views `[10, 9]`. -/
def aggQCExample : AggregateQuorumCertificate :=
  ⟨11, some aggQCExampleHighQC, [10, 9],
    some ⟨some [true, true],
      some (blsAggregateSignatures
        [blsSign 1 (.plain (GetTimeoutSignaturePayload 11 10)),
         blsSign 2 (.plain (GetTimeoutSignaturePayload 11 9))])⟩⟩

/-- Counterexample to C7 as stated, mirroring the happy path of
TestIsValidSuperMajorityAggregateQuorumCertificate (src/unnamed/part_001):
the aggregate QC is accepted even though its embedded high QC is not itself
a valid super-majority QC, so the validator performs no such check. -/
theorem aggregateQCValidation_c7_counterexample :
    IsValidSuperMajorityAggregateQuorumCertificate (some aggQCExample) aggQCExampleValidators
      = true ∧
    aggQCExample.highQC = some aggQCExampleHighQC ∧
    IsValidSuperMajorityQuorumCertificate (some aggQCExampleHighQC) aggQCExampleValidators
      = false := by decide

/-- C7 as amended: `is_valid_super_majority_aggregate_qc(a, V)` is total and
returns true exactly when all inputs are present and well formed, the
high-QC-views list's length equals the signers-bitset popcount, every set
bit is in range, the selected signers' stake is a super-majority of `V` in
exact arithmetic, the multi-payload aggregated signature verifies against
the per-signer payloads `timeout_payload(a.view, high_qc_views[i])`, and
`max(a.high_qc_views) = a.high_qc.view`; the embedded high QC is only
checked for well-formedness, not for being a valid super-majority QC. -/
theorem aggregateQCValidation_c7_amended
    (aggQC : Option AggregateQuorumCertificate) (validators : List (Option Validator)) :
    IsValidSuperMajorityAggregateQuorumCertificate aggQC validators = true ↔
      ∃ a vs hqc aggSig bits sig,
        aggQC = some a ∧
        validateValidatorSet validators = some vs ∧
        a.highQC = some hqc ∧
        a.aggregatedSignature = some aggSig ∧
        aggSig.signersList = some bits ∧
        aggSig.signature = some sig ∧
        isProperlyFormedQC (some hqc) = true ∧
        bitsInRange bits vs.length = true ∧
        a.highQCViews.length = popcount bits ∧
        sumStake vs ≠ 0 ∧
        sumStake ((selectedIndices bits vs.length).filterMap (fun i => vs.get? i))
          ≤ sumStake vs ∧
        2 * sumStake vs + 1
          ≤ 3 * sumStake ((selectedIndices bits vs.length).filterMap (fun i => vs.get? i)) ∧
        VerifyAggregateSignatureMultiplePayloads
          (((selectedIndices bits vs.length).filterMap (fun i => vs.get? i)).map (·.publicKey))
          sig (a.highQCViews.map (fun v => .plain (GetTimeoutSignaturePayload a.view v)))
          = true ∧
        a.highQCViews.foldl max 0 = hqc.view := by
  constructor
  · intro h
    rcases haq : aggQC with _ | a
    · rw [haq] at h
      simp [IsValidSuperMajorityAggregateQuorumCertificate] at h
    rw [haq] at h
    rcases hvs : validateValidatorSet validators with _ | vs
    · simp [IsValidSuperMajorityAggregateQuorumCertificate, hvs] at h
    rcases hhq : a.highQC with _ | hqc
    · simp [IsValidSuperMajorityAggregateQuorumCertificate, hvs, hhq] at h
    rcases haggs : a.aggregatedSignature with _ | aggSig
    · simp [IsValidSuperMajorityAggregateQuorumCertificate, hvs, hhq, haggs] at h
    rcases hbits : aggSig.signersList with _ | bits
    · simp [IsValidSuperMajorityAggregateQuorumCertificate, hvs, hhq, haggs, hbits] at h
    rcases hsig : aggSig.signature with _ | sig
    · simp [IsValidSuperMajorityAggregateQuorumCertificate, hvs, hhq, haggs, hbits, hsig] at h
    simp only [IsValidSuperMajorityAggregateQuorumCertificate, hvs, hhq, haggs, hbits, hsig,
      Bool.and_eq_true, beq_iff_eq] at h
    obtain ⟨⟨⟨hformed, hrange⟩, hlen⟩, ⟨hsm, hver⟩, hmax⟩ := h
    have hsm' := hsm
    simp only [isSuperMajorityStake] at hsm'
    by_cases h0 : sumStake vs = 0
    · rw [if_pos h0] at hsm'
      exact absurd hsm' (by simp)
    rw [if_neg h0] at hsm'
    by_cases hlt : sumStake vs
        < sumStake ((selectedIndices bits vs.length).filterMap (fun i => vs.get? i))
    · rw [if_pos hlt] at hsm'
      exact absurd hsm' (by simp)
    rw [if_neg hlt] at hsm'
    exact ⟨a, vs, hqc, aggSig, bits, sig, rfl, rfl, hhq, haggs, hbits, hsig, hformed,
      hrange, hlen, h0, Nat.le_of_not_lt hlt, of_decide_eq_true hsm', hver, hmax⟩
  · rintro ⟨a, vs, hqc, aggSig, bits, sig, ha, hvs, hhq, haggs, hbits, hsig, hformed,
      hrange, hlen, h0, hle, hsm, hver, hmax⟩
    subst ha
    simp only [IsValidSuperMajorityAggregateQuorumCertificate, hvs, hhq, haggs, hbits, hsig,
      Bool.and_eq_true, beq_iff_eq]
    refine ⟨⟨⟨hformed, hrange⟩, hlen⟩, ⟨?_, hver⟩, hmax⟩
    simp only [isSuperMajorityStake]
    rw [if_neg h0, if_neg (Nat.not_lt.mpr hle)]
    exact decide_eq_true hsm

theorem mapM_validate_mem (l : List BlockWithValidators) (l' : List SafeBlockI)
    (h : l.mapM validateBlockWithValidators = some l') :
    ∀ bI ∈ l', ∃ b, validateBlockWithValidators b = some bI := by
  induction l generalizing l' with
  | nil =>
    rw [List.mapM_nil] at h
    simp only [Option.pure_def, Option.some.injEq] at h
    subst h
    simp
  | cons a t ih =>
    rcases hfa : validateBlockWithValidators a with _ | x
    · rw [List.mapM_cons, hfa] at h
      simp at h
    rcases hmt : t.mapM validateBlockWithValidators with _ | xs
    · rw [List.mapM_cons, hfa, hmt] at h
      simp at h
    rw [List.mapM_cons, hfa, hmt] at h
    simp at h
    subst h
    intro bI hbI
    rcases List.mem_cons.mp hbI with hh | hh
    · exact ⟨a, hh ▸ hfa⟩
    · exact ih xs hmt bI hh

/-- A properly formed block for the `Init` counterexample. -/
def initExampleBlock : Block :=
  ⟨some 42, 2, 1, some ⟨1, some 41, some ⟨some [true], some (blsSign 1 (.plain (.vote 1 41)))⟩⟩⟩

/-- A properly formed validator set in which both validators share public
key 1 (nothing in the formedness checks forbids this). -/
def initExampleDupSet : List (Option Validator) :=
  [some ⟨some 1, some 5⟩, some ⟨some 1, some 7⟩]

/-- The tip input with the duplicate-key validator set. -/
def initExampleTip : BlockWithValidators :=
  ⟨some initExampleBlock, initExampleDupSet⟩

/-- Counterexample to C8 as stated: `Init` succeeds on a properly formed tip
whose validator set repeats a public key, and the derived validator-lookup
map has 1 entry while the validator set has 2 — the sizes differ, because
Go-map insertion collapses duplicate keys. -/
theorem init_c8_counterexample :
    (NewFastHotStuffEventLoop.Init 1 1 initExampleTip [initExampleTip]).2 = none ∧
    (NewFastHotStuffEventLoop.Init 1 1 initExampleTip [initExampleTip]).1.tip.validatorSet.length
      = 2 ∧
    (NewFastHotStuffEventLoop.Init 1 1 initExampleTip
        [initExampleTip]).1.tip.validatorLookup.length = 1 := by
  decide

/-- C8 as amended: `Init` with positive durations and properly formed tip,
safe blocks and validator sets succeeds, stores the validated tip and safe
blocks, sets `current_view = tip.view + 1`, transitions to `Initialized`
without starting either timer, and derives validator-lookup maps whose size
equals the validator set's size whenever the set's public keys are pairwise
distinct (duplicate keys collapse in the lookup map); with a zero duration
or any nil/malformed block or validator set, `Init` returns an error and
leaves the state unchanged. -/
theorem init_c8_amended (s : FastHotStuffEventLoop) (d1 d2 : Nat)
    (tip : BlockWithValidators) (safeBlocks : List BlockWithValidators)
    (tipI : SafeBlockI) (safeI : List SafeBlockI)
    (hs : s.status ≠ .running) (h1 : d1 ≠ 0) (h2 : d2 ≠ 0)
    (htip : validateBlockWithValidators tip = some tipI)
    (hsafe : safeBlocks.mapM validateBlockWithValidators = some safeI) :
    (s.Init d1 d2 tip safeBlocks).2 = none ∧
    (s.Init d1 d2 tip safeBlocks).1.status = .initialized ∧
    (s.Init d1 d2 tip safeBlocks).1.currentView = tipI.view + 1 ∧
    (s.Init d1 d2 tip safeBlocks).1.tip = tipI ∧
    (s.Init d1 d2 tip safeBlocks).1.safeBlocks = safeI ∧
    (s.Init d1 d2 tip safeBlocks).1.blockConstructionInterval = d1 ∧
    (s.Init d1 d2 tip safeBlocks).1.timeoutBaseDuration = d2 ∧
    (s.Init d1 d2 tip safeBlocks).1.blockConstructionTaskScheduled
      = s.blockConstructionTaskScheduled ∧
    (s.Init d1 d2 tip safeBlocks).1.timeoutTaskScheduled = s.timeoutTaskScheduled ∧
    ((tipI.validatorSet.map (·.publicKey)).Nodup →
        tipI.validatorLookup.length = tipI.validatorSet.length) ∧
    (∀ bI ∈ safeI, (bI.validatorSet.map (·.publicKey)).Nodup →
        bI.validatorLookup.length = bI.validatorSet.length) ∧
    (∀ d1' d2' tip' safeBlocks',
        (d1' = 0 ∨ d2' = 0 ∨ validateBlockWithValidators tip' = none ∨
          safeBlocks'.mapM validateBlockWithValidators = none) →
        ((s.Init d1' d2' tip' safeBlocks').2.isSome ∧
         (s.Init d1' d2' tip' safeBlocks').1 = s)) := by
  have hInit : s.Init d1 d2 tip safeBlocks
      = ({ s with
            status := .initialized
            currentView := tipI.view + 1
            tip := tipI
            safeBlocks := safeI
            votesSeen := []
            timeoutsSeen := []
            blockConstructionInterval := d1
            timeoutBaseDuration := d2 }, none) := by
    unfold FastHotStuffEventLoop.Init
    rw [if_neg hs, if_neg h1, if_neg h2, htip, hsafe]
  refine ⟨by rw [hInit], by rw [hInit], by rw [hInit], by rw [hInit], by rw [hInit],
    by rw [hInit], by rw [hInit], by rw [hInit], by rw [hInit], ?_, ?_, ?_⟩
  · intro hnd
    rw [validateBlockWithValidators_lookup tip tipI htip]
    exact buildValidatorLookup_length _ hnd
  · intro bI hbI hnd
    obtain ⟨b, hb⟩ := mapM_validate_mem safeBlocks safeI hsafe bI hbI
    rw [validateBlockWithValidators_lookup b bI hb]
    exact buildValidatorLookup_length _ hnd
  · intro d1' d2' tip' safeBlocks' hbad
    unfold FastHotStuffEventLoop.Init
    by_cases hr : s.status = .running
    · rw [if_pos hr]
      simp
    rw [if_neg hr]
    by_cases hd1 : d1' = 0
    · rw [if_pos hd1]
      simp
    rw [if_neg hd1]
    by_cases hd2 : d2' = 0
    · rw [if_pos hd2]
      simp
    rw [if_neg hd2]
    rcases hbad with h | h | h | h
    · exact absurd h hd1
    · exact absurd h hd2
    · rcases hm : safeBlocks'.mapM validateBlockWithValidators with _ | safeI'
      · rw [h]
        simp
      · rw [h]
        simp
    · rcases hv : validateBlockWithValidators tip' with _ | tipI'
      · rw [h]
        simp
      · rw [h]
        simp

/-- The validated internal tip corresponding to the distinct-key `Init`
input of the witness. -/
def initExampleTipI : SafeBlockI :=
  ⟨42, 2, 1, ⟨1, some 41, some ⟨some [true], some (blsSign 1 (.plain (.vote 1 41)))⟩⟩,
    [⟨1, 70⟩, ⟨2, 30⟩], buildValidatorLookup [⟨1, 70⟩, ⟨2, 30⟩]⟩

/-- Closed instance of `init_c8_amended`: `Init` on a fresh loop with a
distinct-key validator set succeeds, sets view 3, and the lookup size
matches the set size. -/
theorem init_c8_amended_witness :
    (NewFastHotStuffEventLoop.Init 1 1
        ⟨some initExampleBlock, [some ⟨some 1, some 70⟩, some ⟨some 2, some 30⟩]⟩
        []).2 = none ∧
    (NewFastHotStuffEventLoop.Init 1 1
        ⟨some initExampleBlock, [some ⟨some 1, some 70⟩, some ⟨some 2, some 30⟩]⟩
        []).1.currentView = 3 ∧
    (NewFastHotStuffEventLoop.Init 1 1
        ⟨some initExampleBlock, [some ⟨some 1, some 70⟩, some ⟨some 2, some 30⟩]⟩
        []).1.tip.validatorLookup.length
      = (NewFastHotStuffEventLoop.Init 1 1
          ⟨some initExampleBlock, [some ⟨some 1, some 70⟩, some ⟨some 2, some 30⟩]⟩
          []).1.tip.validatorSet.length := by
  have h := init_c8_amended NewFastHotStuffEventLoop 1 1
    ⟨some initExampleBlock, [some ⟨some 1, some 70⟩, some ⟨some 2, some 30⟩]⟩ []
    initExampleTipI []
    (by decide) (by decide) (by decide) (by decide) (by decide)
  refine ⟨h.1, ?_, ?_⟩
  · rw [h.2.2.1]
    decide
  · rw [h.2.2.2.1]
    exact h.2.2.2.2.2.2.2.2.2.1 (by decide)

/-- A concrete running loop for the signing-convention claim. -/
def opcodeExampleLoop : FastHotStuffEventLoop :=
  { status := .running, currentView := 3, tip := emptySafeBlockI, safeBlocks := [],
    votesSeen := [], timeoutsSeen := [],
    blockConstructionInterval := 5, timeoutBaseDuration := 7,
    blockConstructionTaskDuration := 5, blockConstructionTaskScheduled := true,
    timeoutTaskDuration := 7, timeoutTaskScheduled := true,
    consecutiveTimeouts := 0 }

/-- A vote for view 3 signed the way the consensus tests sign: over the bare
payload digest. -/
def opcodeExamplePlainVote : VoteMessage :=
  ⟨3, some 11, some 1, some (blsSign 1 (.plain (GetVoteSignaturePayload 3 11)))⟩

/-- The same vote signed through `BLSSigner.SignValidatorVote`, i.e. over the
op-code-prefixed payload. -/
def opcodeExampleSignerVote : VoteMessage :=
  ⟨3, some 11, some 1, some (BLSSigner.SignValidatorVote 1 3 11)⟩

/-- A timeout for view 3 (high QC view 1) signed over the bare payload. -/
def opcodeExamplePlainTimeout : TimeoutMessage :=
  ⟨3, some ⟨1, some 10, some ⟨some [true], some (blsSign 1 (.plain (.vote 1 10)))⟩⟩,
    some 1, some (blsSign 1 (.plain (GetTimeoutSignaturePayload 3 1)))⟩

/-- The same timeout signed through `BLSSigner.SignValidatorTimeout`. -/
def opcodeExampleSignerTimeout : TimeoutMessage :=
  ⟨3, some ⟨1, some 10, some ⟨some [true], some (blsSign 1 (.plain (.vote 1 10)))⟩⟩,
    some 1, some (BLSSigner.SignValidatorTimeout 1 3 1)⟩

/-- Counterexample to C9 as stated: the event loop verifies votes and
timeouts over the bare payload digests and not over the op-code-prefixed
bytes the `BLSSigner` layer signs — the two byte strings differ, a
bare-payload signature is accepted, and a `BLSSigner`-produced signature is
rejected as invalid. -/
theorem opcodeConvention_c9_counterexample :
    SignedBytes.plain (GetVoteSignaturePayload 3 11)
      ≠ SignedBytes.withOpCode BLSSignatureOpCodeValidatorVote (GetVoteSignaturePayload 3 11) ∧
    (opcodeExampleLoop.ProcessValidatorVote (some opcodeExamplePlainVote)).2 = none ∧
    (opcodeExampleLoop.ProcessValidatorVote (some opcodeExampleSignerVote)).2
      = some .invalidSignature ∧
    (opcodeExampleLoop.ProcessValidatorTimeout (some opcodeExamplePlainTimeout)).2 = none ∧
    (opcodeExampleLoop.ProcessValidatorTimeout (some opcodeExampleSignerTimeout)).2
      = some .invalidSignature := by
  decide

/-- C9 as amended: every vote (resp. timeout) signature that the event loop
verifies is checked over the bare payload `vote_payload(view, block_hash)`
(resp. `timeout_payload(view, high_qc_view)`) with no op-code byte, whereas
the network-message signing layer `BLSSigner` prepends the single op-code
byte 0x00 (votes) resp. 0x01 (timeouts) before signing; consequently a
signature produced by `BLSSigner` never verifies in the event loop, and the
two layers' signing conventions differ. -/
theorem opcodeConvention_c9_amended (s : FastHotStuffEventLoop) (v : VoteMessage)
    (t : TimeoutMessage) (pk hsh : Nat) (hq : QuorumCertificate)
    (hrun : s.status = .running)
    (hvview : v.view ≠ 0) (hvpk : v.publicKey = some pk) (hvh : v.blockHash = some hsh)
    (hvfresh : s.currentView ≤ v.view)
    (hvnv : hasVotedForView s pk v.view = false)
    (hvnt : hasTimedOutForView s pk v.view = false)
    (htview : t.view ≠ 0) (htpk : t.publicKey = some pk) (hthq : t.highQC = some hq)
    (hthqf : isProperlyFormedQC (some hq) = true)
    (htfresh : s.currentView ≤ t.view)
    (htnv : hasVotedForView s pk t.view = false)
    (htnt : hasTimedOutForView s pk t.view = false) :
    (v.signature = some (blsSign pk (.plain (GetVoteSignaturePayload v.view hsh))) →
        (s.ProcessValidatorVote (some v)).2 = none) ∧
    (v.signature = some (BLSSigner.SignValidatorVote pk v.view hsh) →
        (s.ProcessValidatorVote (some v)).2 = some .invalidSignature) ∧
    (t.signature = some (blsSign pk (.plain (GetTimeoutSignaturePayload t.view hq.view))) →
        (s.ProcessValidatorTimeout (some t)).2 = none) ∧
    (t.signature = some (BLSSigner.SignValidatorTimeout pk t.view hq.view) →
        (s.ProcessValidatorTimeout (some t)).2 = some .invalidSignature) ∧
    BLSSigner.SignValidatorVote pk v.view hsh
      = blsSign pk (.withOpCode 0 (GetVoteSignaturePayload v.view hsh)) ∧
    BLSSigner.SignValidatorTimeout pk t.view hq.view
      = blsSign pk (.withOpCode 1 (GetTimeoutSignaturePayload t.view hq.view)) := by
  have hvform : ∀ sg : BLSSig, v.signature = some sg → isProperlyFormedVote (some v) = true := by
    intro sg hsg
    simp [isProperlyFormedVote, hvview, hvpk, hvh, hsg]
  have htform : ∀ sg : BLSSig, t.signature = some sg →
      isProperlyFormedTimeout (some t) = true := by
    intro sg hsg
    simp [isProperlyFormedTimeout, htview, htpk, hthq, hthqf, hsg]
  refine ⟨?_, ?_, ?_, ?_, rfl, rfl⟩
  · intro hsg
    have hsig : voteSignatureValid v = true := by
      simp [voteSignatureValid, voteSignedMessage, hvpk, hvh, hsg, blsVerify, blsSign]
    simp [FastHotStuffEventLoop.ProcessValidatorVote, hrun, hvform _ hsg, hsig,
      Nat.not_lt.mpr hvfresh, hvpk, hvnv, hvnt]
  · intro hsg
    have hsig : voteSignatureValid v = false := by
      simp [voteSignatureValid, voteSignedMessage, hvpk, hvh, hsg, blsVerify,
        BLSSigner.SignValidatorVote, BLSSigner.sign, blsSign]
    simp [FastHotStuffEventLoop.ProcessValidatorVote, hrun, hvform _ hsg, hsig]
  · intro hsg
    have hsig : timeoutSignatureValid t = true := by
      simp [timeoutSignatureValid, timeoutSignedMessage, htpk, hthq, hsg, blsVerify, blsSign]
    simp [FastHotStuffEventLoop.ProcessValidatorTimeout, hrun, htform _ hsg, hsig,
      Nat.not_lt.mpr htfresh, htpk, htnv, htnt]
  · intro hsg
    have hsig : timeoutSignatureValid t = false := by
      simp [timeoutSignatureValid, timeoutSignedMessage, htpk, hthq, hsg, blsVerify,
        BLSSigner.SignValidatorTimeout, BLSSigner.sign, blsSign]
    simp [FastHotStuffEventLoop.ProcessValidatorTimeout, hrun, htform _ hsg, hsig]

/-- Closed instance of `opcodeConvention_c9_amended` at the concrete loop
and messages of the counterexample. -/
theorem opcodeConvention_c9_amended_witness :
    (opcodeExampleLoop.ProcessValidatorVote (some opcodeExamplePlainVote)).2 = none ∧
    (opcodeExampleLoop.ProcessValidatorVote (some opcodeExampleSignerVote)).2
      = some .invalidSignature := by
  constructor
  · exact (opcodeConvention_c9_amended opcodeExampleLoop opcodeExamplePlainVote
      opcodeExamplePlainTimeout 1 11 ⟨1, some 10, some ⟨some [true],
        some (blsSign 1 (.plain (.vote 1 10)))⟩⟩
      rfl (by decide) (by decide) (by decide) (by decide) (by decide) (by decide)
      (by decide) (by decide) (by decide) (by decide) (by decide) (by decide)
      (by decide)).1 (by decide)
  · exact (opcodeConvention_c9_amended opcodeExampleLoop opcodeExampleSignerVote
      opcodeExamplePlainTimeout 1 11 ⟨1, some 10, some ⟨some [true],
        some (blsSign 1 (.plain (.vote 1 10)))⟩⟩
      rfl (by decide) (by decide) (by decide) (by decide) (by decide) (by decide)
      (by decide) (by decide) (by decide) (by decide) (by decide) (by decide)
      (by decide)).2.1 (by decide)

/-- C10: when the view-timeout task fires on a running loop, the single
emitted `Timeout` event carries the current view and the tip's block hash,
the task is left unscheduled, and the current view is unchanged; message
ingestion, `Stop` and the block-construction tick never arm the timeout
task, while `AdvanceView`, a successful `ProcessTipBlock` and `Start` do. -/
theorem timeoutFire_c10 (s : FastHotStuffEventLoop) (hrun : s.status = .running) :
    (s.onTimeoutTaskExecuted).1.timeoutTaskScheduled = false ∧
    (s.onTimeoutTaskExecuted).1.currentView = s.currentView ∧
    (s.onTimeoutTaskExecuted).2
      = [⟨.timeout, s.currentView, s.tip.blockHash, s.tip.height, none, none⟩] ∧
    (∀ m, ((s.onTimeoutTaskExecuted).1.ProcessValidatorVote m).1.timeoutTaskScheduled
        = false) ∧
    (∀ m, ((s.onTimeoutTaskExecuted).1.ProcessValidatorTimeout m).1.timeoutTaskScheduled
        = false) ∧
    ((s.onTimeoutTaskExecuted).1.Stop.timeoutTaskScheduled = false) ∧
    (((s.onTimeoutTaskExecuted).1.onBlockConstructionTaskExecuted).1.timeoutTaskScheduled
        = false) ∧
    (((s.onTimeoutTaskExecuted).1.AdvanceView).1.timeoutTaskScheduled = true) ∧
    (∀ tip safeBlocks,
        ((s.onTimeoutTaskExecuted).1.ProcessTipBlock tip safeBlocks).2 = none →
        ((s.onTimeoutTaskExecuted).1.ProcessTipBlock tip safeBlocks).1.timeoutTaskScheduled
          = true) ∧
    (∀ s0 : FastHotStuffEventLoop, s0.status = .initialized →
        (s0.Start).1.timeoutTaskScheduled = true) := by
  have hfire : (s.onTimeoutTaskExecuted).1 = { s with timeoutTaskScheduled := false } := by
    simp [FastHotStuffEventLoop.onTimeoutTaskExecuted, hrun]
  have hfirestatus : (s.onTimeoutTaskExecuted).1.status = .running := by
    rw [hfire]
    exact hrun
  refine ⟨by rw [hfire], by rw [hfire], ?_, ?_, ?_, ?_, ?_, ?_, ?_, ?_⟩
  · simp [FastHotStuffEventLoop.onTimeoutTaskExecuted, hrun]
  · intro m
    rw [(processValidatorVote_timeoutTask _ m).1, hfire]
  · intro m
    rw [(processValidatorTimeout_timeoutTask _ m).1, hfire]
  · rw [FastHotStuffEventLoop.Stop, if_pos hfirestatus]
  · rw [onBlockConstruction_timeoutTask, hfire]
  · exact (advanceView_fields _ hfirestatus).2.2.2.2.2.2.2
  · intro tip safeBlocks hsucc
    rcases h1 : validateBlockWithValidators tip with _ | tipI
    · rw [FastHotStuffEventLoop.ProcessTipBlock, if_pos hfirestatus, h1] at hsucc
      simp at hsucc
    rcases h2 : safeBlocks.mapM validateBlockWithValidators with _ | safeI
    · rw [FastHotStuffEventLoop.ProcessTipBlock, if_pos hfirestatus, h1, h2] at hsucc
      simp at hsucc
    rw [FastHotStuffEventLoop.ProcessTipBlock, if_pos hfirestatus, h1, h2]
    simp [scheduleTimeoutTask, scheduleBlockConstructionTask, evictStaleVotesAndTimeouts]
  · intro s0 h0
    simp [FastHotStuffEventLoop.Start, h0, scheduleTimeoutTask, scheduleBlockConstructionTask]

/-- A concrete running loop (armed timeout task) for the timeout-fire
claim. -/
def timeoutFireExampleLoop : FastHotStuffEventLoop :=
  { status := .running, currentView := 3, tip := emptySafeBlockI, safeBlocks := [],
    votesSeen := [], timeoutsSeen := [],
    blockConstructionInterval := 5, timeoutBaseDuration := 7,
    blockConstructionTaskDuration := 5, blockConstructionTaskScheduled := true,
    timeoutTaskDuration := 7, timeoutTaskScheduled := true,
    consecutiveTimeouts := 0 }

/-- Closed instance of `timeoutFire_c10` at a concrete running loop: the
fired task is unscheduled, the view is unchanged, and the exact `Timeout`
event is emitted. -/
theorem timeoutFire_c10_witness :
    (timeoutFireExampleLoop.onTimeoutTaskExecuted).1.timeoutTaskScheduled = false ∧
    (timeoutFireExampleLoop.onTimeoutTaskExecuted).1.currentView = 3 ∧
    (timeoutFireExampleLoop.onTimeoutTaskExecuted).2
      = [⟨.timeout, 3, emptySafeBlockI.blockHash, emptySafeBlockI.height, none, none⟩] := by
  have h := timeoutFire_c10 timeoutFireExampleLoop rfl
  exact ⟨h.1, h.2.1, h.2.2.1⟩
